import Mathlib

/-!
Verification development for the Peppol e-invoicing converter
(`erensahan40/peppol-e-invoicing-converter`).

Shallow embedding of the invoice extraction/normalization/validation/UBL
pipeline.  JavaScript numbers are modelled as rationals (`ℚ`), with
`Math.round` as its ECMAScript mathematical definition
(round to nearest integer, ties toward +∞, i.e. `⌊x + 1/2⌋`).
JavaScript strings are modelled as lists of code points (`List Nat`);
`toUpperCase`/`trim`/`replace(/\s/g,'')` are modelled on the ASCII range,
which covers every character class the source manipulates (letters,
digits, whitespace).  Optional (`?:`) fields become `Option`.
Display-only parts of `ValidationError` (the bilingual `message` and
`suggestedFix` strings) are omitted from the model; `code`, `severity`
and `fieldPath` are kept.
-/

namespace Peppol

/-! ## JS string model (src: String.prototype.toUpperCase / trim / replace) -/

/-- JS strings as lists of code points. -/
abbrev JSStr := List Nat

/-- Embed a Lean string literal as a `JSStr`. -/
def str (s : String) : JSStr := s.data.map Char.toNat

/-- ASCII model of `String.prototype.toUpperCase` on one code point. -/
def upperChar (c : Nat) : Nat := if 97 ≤ c ∧ c ≤ 122 then c - 32 else c

/-- Model of the JS `\s` character class (ASCII part). -/
def jsIsSpace (c : Nat) : Bool := c = 32 || c = 9 || c = 10 || c = 13 || c = 11 || c = 12

/-- Decimal digit code point. -/
def isDigitCp (c : Nat) : Bool := 48 ≤ c && c ≤ 57

/-- Uppercase ASCII letter code point (the `[A-Z]` class). -/
def isUpperCp (c : Nat) : Bool := 65 ≤ c && c ≤ 90

/-- `s.toUpperCase()`. -/
def upperStr (s : JSStr) : JSStr := s.map upperChar

/-- `s.replace(/\s/g, '')`. -/
def stripStr (s : JSStr) : JSStr := s.filter (fun c => !(jsIsSpace c))

/-- `s.trim()`. -/
def trimStr (s : JSStr) : JSStr :=
  ((s.dropWhile (fun c => jsIsSpace c)).reverse.dropWhile (fun c => jsIsSpace c)).reverse

/-- JS truthiness of an optional string (`undefined`, `null` and `''` are falsy). -/
def strTruthy (o : Option JSStr) : Bool := o.getD [] ≠ []

/-- JS truthiness of an optional number (`undefined`, `null` and `0` are falsy;
`NaN` is outside the rational model). -/
def qTruthy (o : Option ℚ) : Bool := o.getD 0 ≠ 0

/-! ## Rounding (src/mapping/normalize.ts, roundTo2Decimals) -/

/-- ECMAScript `Math.round`: nearest integer, ties toward +∞. -/
def jsRound (x : ℚ) : ℤ := ⌊x + 1/2⌋

/-- `roundTo2Decimals(value) = Math.round(value * 100) / 100`
(src/mapping/normalize.ts lines 132–134). -/
def roundTo2Decimals (value : ℚ) : ℚ := (jsRound (value * 100) : ℚ) / 100

/-- Round-half-away-from-zero at 2 decimal places, as the SPEC words it
("All rounding uses round-half-away-from-zero at 2 decimal places").
Second definition for refinement comparison with `roundTo2Decimals`. -/
def roundHalfAwayFromZero2 (v : ℚ) : ℚ :=
  if 0 ≤ v then (⌊v * 100 + 1/2⌋ : ℚ) / 100 else -((⌊(-v) * 100 + 1/2⌋ : ℚ) / 100)

/-! ## Data model (src/types/invoice.ts) -/

/-- `Address` (src/types/invoice.ts). -/
structure Address where
  street : Option JSStr := none
  city : Option JSStr := none
  postalCode : Option JSStr := none
  countryCode : Option JSStr := none
  country : Option JSStr := none
  deriving DecidableEq, Repr

/-- `Party` (src/types/invoice.ts). -/
structure Party where
  name : Option JSStr := none
  address : Option Address := none
  vatNumber : Option JSStr := none
  kboNumber : Option JSStr := none
  taxRegistrationId : Option JSStr := none
  deriving DecidableEq, Repr

/-- `InvoiceLine` (src/types/invoice.ts). -/
structure InvoiceLine where
  description : Option JSStr := none
  quantity : Option ℚ := none
  unitPrice : Option ℚ := none
  unitOfMeasure : Option JSStr := none
  vatRate : Option ℚ := none
  vatCategory : Option JSStr := none
  lineTotal : Option ℚ := none
  confidence : Option ℚ := none
  source : Option JSStr := none
  deriving DecidableEq, Repr

/-- A JS `Date` object: its time value (ms since epoch) and whether it is a
valid date (`valid = false` models `isNaN(date.getTime())`). -/
structure JDate where
  valid : Bool := true
  time : ℤ := 0
  deriving DecidableEq, Repr

/-- `InvoiceNormalized` (src/types/invoice.ts). -/
structure InvoiceNormalized where
  invoiceNumber : Option JSStr := none
  issueDate : Option JDate := none
  dueDate : Option JDate := none
  currency : Option JSStr := none
  supplier : Option Party := none
  customer : Option Party := none
  paymentReference : Option JSStr := none
  iban : Option JSStr := none
  bic : Option JSStr := none
  lines : List InvoiceLine := []
  subtotalExclVat : Option ℚ := none
  vatTotal : Option ℚ := none
  totalInclVat : Option ℚ := none
  sourceType : Option JSStr := none
  sourceFile : Option JSStr := none
  extractionConfidence : Option ℚ := none
  deriving DecidableEq, Repr

/-- `MappingField` (src/types/invoice.ts); `value`/`rawValue` are modelled as
strings (the AI merge only stores string values there). -/
structure MappingField where
  field : JSStr
  value : JSStr
  source : JSStr
  confidence : ℚ
  rawValue : Option JSStr := none
  deriving DecidableEq, Repr

/-- Severity of a validation finding. -/
inductive Severity where
  | error
  | warning
  deriving DecidableEq, Repr

/-- `ValidationError` (src/types/invoice.ts); the display-only `message` and
`suggestedFix` strings are omitted from the model. -/
structure VError where
  code : JSStr
  severity : Severity
  fieldPath : Option JSStr := none
  deriving DecidableEq, Repr

/-! ## Normalizer (src/mapping/normalize.ts) -/

/-- The `/^[A-Z]{2}/` test of `normalizeVATNumber`. -/
def twoUpperStart (n : JSStr) : Bool :=
  match n with
  | c1 :: c2 :: _ => isUpperCp c1 && isUpperCp c2
  | _ => false

/-- The `/^\d{10}$/` test of `normalizeVATNumber`. -/
def beShape (n : JSStr) : Bool := n.length == 10 && n.all isDigitCp

/-- The `/^\d{9}B\d{2}$/` test of `normalizeVATNumber`. -/
def nlShape (n : JSStr) : Bool :=
  (n.length == 12) && (n.take 9).all isDigitCp &&
    (match n.drop 9 with
      | [b, d1, d2] => b == 66 && isDigitCp d1 && isDigitCp d2
      | _ => false)

/-- `normalizeVATNumber` (src/mapping/normalize.ts lines 110–125):
strip whitespace, uppercase, and prefix an inferred country code when the
result does not already start with two uppercase letters
(`/^\d{10}$/` → BE, `/^\d{9}B\d{2}$/` → NL). -/
def normalizeVATNumber (vat : JSStr) : JSStr :=
  let n := upperStr (stripStr vat)
  if twoUpperStart n then n
  else if beShape n then str "BE" ++ n
  else if nlShape n then str "NL" ++ n
  else n

/-- `normalizeIBAN` (src/mapping/normalize.ts lines 127–130). -/
def normalizeIBAN (iban : JSStr) : JSStr := upperStr (stripStr iban)

/-- `normalizeLine` (src/mapping/normalize.ts lines 45–75): default quantity
to 1, derive a missing line total as `roundTo2Decimals(unitPrice*quantity)`,
round the VAT rate, default VAT category to "S" when a rate is set, default
unit of measure to "C62".  The `index` argument is accepted (as in the
source) but unused. -/
def normalizeLine (line : InvoiceLine) (_index : Nat) : InvoiceLine :=
  let quantity' := if line.quantity = none then some 1 else line.quantity
  let lineTotal' :=
    if line.unitPrice ≠ none ∧ quantity' ≠ none ∧ line.lineTotal = none then
      some (roundTo2Decimals (line.unitPrice.getD 0 * quantity'.getD 0))
    else line.lineTotal
  let vatRate' := line.vatRate.map roundTo2Decimals
  let vatCategory' :=
    if line.vatRate ≠ none ∧ ¬ strTruthy line.vatCategory then some (str "S")
    else line.vatCategory
  let unitOfMeasure' :=
    if strTruthy line.unitOfMeasure then line.unitOfMeasure else some (str "C62")
  { line with
    quantity := quantity'
    lineTotal := lineTotal'
    vatRate := vatRate'
    vatCategory := vatCategory'
    unitOfMeasure := unitOfMeasure' }

/-- Subtotal accumulation in `calculateTotals`:
`lines.reduce((sum, line) => sum + (line.lineTotal || 0), 0)`. -/
def sumLineTotals (lines : List InvoiceLine) : ℚ :=
  lines.foldl (fun s l => s + l.lineTotal.getD 0) 0

/-- VAT accumulation in `calculateTotals` (unrounded per line):
`if (line.lineTotal && line.vatRate) sum += (line.lineTotal * line.vatRate) / 100`. -/
def sumVatUnrounded (lines : List InvoiceLine) : ℚ :=
  lines.foldl
    (fun s l =>
      if qTruthy l.lineTotal ∧ qTruthy l.vatRate then
        s + (l.lineTotal.getD 0 * l.vatRate.getD 0) / 100
      else s) 0

/-- `calculateTotals` (src/mapping/normalize.ts lines 77–108), as the
input/output behaviour of the in-place mutation: derive missing
`subtotalExclVat`, `vatTotal`, `totalInclVat` from the lines. -/
def calculateTotals (invoice : InvoiceNormalized) : InvoiceNormalized :=
  let subtotal' :=
    if invoice.lines ≠ [] ∧ invoice.subtotalExclVat = none then
      some (roundTo2Decimals (sumLineTotals invoice.lines))
    else invoice.subtotalExclVat
  let vatTotal' :=
    if invoice.lines ≠ [] ∧ invoice.vatTotal = none then
      some (roundTo2Decimals (sumVatUnrounded invoice.lines))
    else invoice.vatTotal
  let totalInclVat' :=
    if subtotal' ≠ none ∧ vatTotal' ≠ none ∧ invoice.totalInclVat = none then
      some (roundTo2Decimals (subtotal'.getD 0 + vatTotal'.getD 0))
    else invoice.totalInclVat
  { invoice with
    subtotalExclVat := subtotal'
    vatTotal := vatTotal'
    totalInclVat := totalInclVat' }

/-- The in-place VAT normalization of one party, as a value transformation. -/
def normalizePartyValue (p : Party) : Party :=
  if strTruthy p.vatNumber then
    { p with vatNumber := some (normalizeVATNumber (p.vatNumber.getD [])) }
  else p

/-- `normalizeInvoice` (src/mapping/normalize.ts lines 6–43), as the
input/output behaviour on values of the declared `InvoiceNormalized` type
(on such values `issueDate`/`dueDate` are already `Date` objects, so the
`instanceof Date` coercion branches are identities). -/
def normalizeInvoice (invoice : InvoiceNormalized) : InvoiceNormalized :=
  let currency' := some (upperStr (if strTruthy invoice.currency then invoice.currency.getD [] else str "EUR"))
  let supplier' := invoice.supplier.map normalizePartyValue
  let customer' := invoice.customer.map normalizePartyValue
  let iban' :=
    if strTruthy invoice.iban then some (normalizeIBAN (invoice.iban.getD [])) else invoice.iban
  let lines' := invoice.lines.mapIdx (fun i l => normalizeLine l i)
  calculateTotals
    { invoice with
      currency := currency'
      supplier := supplier'
      customer := customer'
      iban := iban'
      lines := lines' }

/-! ## Business-rule validator (src/unnamed/part_008, validateBusinessRules) -/

/-- Numeric index rendered into a field path, e.g. `InvoiceLine[3]`. -/
def natStr (n : Nat) : JSStr := str (toString n)

/-- The `WARN_MISSING_INVOICE_ID` check. -/
def checkInvoiceNumber (inv : InvoiceNormalized) : List VError :=
  if ¬ strTruthy inv.invoiceNumber ∨ trimStr (inv.invoiceNumber.getD []) = [] then
    [{ code := str "WARN_MISSING_INVOICE_ID", severity := .warning, fieldPath := some (str "Invoice.ID") }]
  else []

/-- The issue-date checks: missing → warning; invalid `Date` → error;
date in the future (relative to `now`, the value of `new Date()`) → warning. -/
def checkIssueDate (now : ℤ) (inv : InvoiceNormalized) : List VError :=
  match inv.issueDate with
  | none =>
      [{ code := str "WARN_MISSING_ISSUE_DATE", severity := .warning, fieldPath := some (str "Invoice.IssueDate") }]
  | some d =>
      if ¬ d.valid then
        [{ code := str "ERR_INVALID_ISSUE_DATE", severity := .error, fieldPath := some (str "Invoice.IssueDate") }]
      else if d.time > now then
        [{ code := str "ERR_FUTURE_ISSUE_DATE", severity := .warning, fieldPath := some (str "Invoice.IssueDate") }]
      else []

/-- The `WARN_MISSING_SUPPLIER_NAME` check. -/
def checkSupplierName (inv : InvoiceNormalized) : List VError :=
  if ¬ strTruthy (inv.supplier.bind Party.name) ∨ trimStr ((inv.supplier.bind Party.name).getD []) = [] then
    [{ code := str "WARN_MISSING_SUPPLIER_NAME", severity := .warning, fieldPath := some (str "Invoice.AccountingSupplierParty.Party.PartyName.Name") }]
  else []

/-- The `WARN_MISSING_SUPPLIER_COUNTRY` check. -/
def checkSupplierCountry (inv : InvoiceNormalized) : List VError :=
  if ¬ strTruthy ((inv.supplier.bind Party.address).bind Address.countryCode) then
    [{ code := str "WARN_MISSING_SUPPLIER_COUNTRY", severity := .warning, fieldPath := some (str "Invoice.AccountingSupplierParty.Party.PostalAddress.Country.IdentificationCode") }]
  else []

/-- The `WARN_MISSING_CUSTOMER_NAME` check. -/
def checkCustomerName (inv : InvoiceNormalized) : List VError :=
  if ¬ strTruthy (inv.customer.bind Party.name) ∨ trimStr ((inv.customer.bind Party.name).getD []) = [] then
    [{ code := str "WARN_MISSING_CUSTOMER_NAME", severity := .warning, fieldPath := some (str "Invoice.AccountingCustomerParty.Party.PartyName.Name") }]
  else []

/-- The `WARN_NO_INVOICE_LINES` check. -/
def checkNoLines (inv : InvoiceNormalized) : List VError :=
  if inv.lines = [] then
    [{ code := str "WARN_NO_INVOICE_LINES", severity := .warning, fieldPath := some (str "Invoice.InvoiceLine") }]
  else []

/-- Per-line checks: missing description → warning; when quantity, unit price
and line total are all present, `|round2(q*u) - round2(t)| > 0.01` → error. -/
def checkLine (index : Nat) (line : InvoiceLine) : List VError :=
  let linePath := str "InvoiceLine[" ++ natStr index ++ str "]"
  let descErrs :=
    if ¬ strTruthy line.description ∨ trimStr (line.description.getD []) = [] then
      [{ code := str "WARN_MISSING_LINE_DESCRIPTION", severity := Severity.warning, fieldPath := some (linePath ++ str ".Item.Description") }]
    else []
  let amountErrs :=
    if line.quantity ≠ none ∧ line.unitPrice ≠ none ∧ line.lineTotal ≠ none then
      let calculatedTotal := roundTo2Decimals (line.quantity.getD 0 * line.unitPrice.getD 0)
      let actualTotal := roundTo2Decimals (line.lineTotal.getD 0)
      if |calculatedTotal - actualTotal| > 1/100 then
        [{ code := str "ERR_INVALID_LINE_AMOUNT", severity := Severity.error, fieldPath := some (linePath ++ str ".LineExtensionAmount") }]
      else []
    else []
  descErrs ++ amountErrs

/-- All per-line checks, in line order. -/
def checkLines (inv : InvoiceNormalized) : List VError :=
  (inv.lines.mapIdx (fun i l => checkLine i l)).flatten

/-- VAT accumulation of the VALIDATOR (rounded per line, unlike the
normalizer): `if (line.lineTotal && line.vatRate) sum += round2(total*rate/100)`. -/
def sumVatRoundedPerLine (lines : List InvoiceLine) : ℚ :=
  lines.foldl
    (fun s l =>
      if qTruthy l.lineTotal ∧ qTruthy l.vatRate then
        s + roundTo2Decimals (l.lineTotal.getD 0 * l.vatRate.getD 0 / 100)
      else s) 0

/-- The subtotal reconciliation of `validateBusinessRules` (part_008 lines
554–568): fires when the stated subtotal differs from the raw (unrounded)
sum of line totals by more than `0.01`. -/
def subtotalErrs (inv : InvoiceNormalized) : List VError :=
  if inv.subtotalExclVat ≠ none ∧ |sumLineTotals inv.lines - inv.subtotalExclVat.getD 0| > 1/100 then
    [{ code := str "ERR_INVALID_SUBTOTAL", severity := Severity.error, fieldPath := some (str "Invoice.LegalMonetaryTotal.TaxExclusiveAmount") }]
  else []

/-- The VAT-total reconciliation (part_008 lines 570–592): the recomputed
value sums the PER-LINE-ROUNDED VAT amounts, and the check only fires when
that recomputed value is positive. -/
def vatTotalErrs (inv : InvoiceNormalized) : List VError :=
  if inv.vatTotal ≠ none ∧ sumVatRoundedPerLine inv.lines > 0 ∧
      |sumVatRoundedPerLine inv.lines - inv.vatTotal.getD 0| > 1/100 then
    [{ code := str "ERR_INVALID_VAT_TOTAL", severity := Severity.error, fieldPath := some (str "Invoice.TaxTotal.TaxAmount") }]
  else []

/-- The grand-total reconciliation (part_008 lines 594–612): all three
stated totals must be present; compares `round2(subtotal + vatTotal)` with
`round2(totalInclVat)`. -/
def grandTotalErrs (inv : InvoiceNormalized) : List VError :=
  if inv.subtotalExclVat ≠ none ∧ inv.vatTotal ≠ none ∧ inv.totalInclVat ≠ none ∧
      |roundTo2Decimals (inv.subtotalExclVat.getD 0 + inv.vatTotal.getD 0) -
        roundTo2Decimals (inv.totalInclVat.getD 0)| > 1/100 then
    [{ code := str "ERR_INVALID_TOTAL", severity := Severity.error, fieldPath := some (str "Invoice.LegalMonetaryTotal.TaxInclusiveAmount") }]
  else []

/-- The aggregate-total checks (part_008 lines 547–613).  All three are
guarded by `lines.length > 0`. -/
def checkTotals (inv : InvoiceNormalized) : List VError :=
  if inv.lines = [] then []
  else subtotalErrs inv ++ vatTotalErrs inv ++ grandTotalErrs inv

/-- `validateVATNumberFormat` (part_008 lines 647–685): BE prefix must be
followed by exactly 10 digits, NL prefix by 9 digits + `B` + 2 digits. -/
def validateVATNumberFormat (vatNumber : JSStr) (isSupplier : Bool) : Option VError :=
  let normalized := upperStr (stripStr vatNumber)
  let path := if isSupplier then str "Invoice.AccountingSupplierParty.Party.PartyTaxScheme.CompanyID" else str "Invoice.AccountingCustomerParty.Party.PartyTaxScheme.CompanyID"
  if normalized.take 2 = str "BE" ∧ ¬ beShape (normalized.drop 2) then
    some { code := str "ERR_INVALID_VAT_FORMAT", severity := .error, fieldPath := some path }
  else if normalized.take 2 = str "NL" ∧ ¬ nlShape (normalized.drop 2) then
    some { code := str "ERR_INVALID_VAT_FORMAT", severity := .error, fieldPath := some path }
  else none

/-- The two VAT-number format checks. -/
def checkVatFormats (inv : InvoiceNormalized) : List VError :=
  let supErrs :=
    if strTruthy (inv.supplier.bind Party.vatNumber) then
      ((validateVATNumberFormat ((inv.supplier.bind Party.vatNumber).getD []) true).map (fun e => [e])).getD []
    else []
  let cusErrs :=
    if strTruthy (inv.customer.bind Party.vatNumber) then
      ((validateVATNumberFormat ((inv.customer.bind Party.vatNumber).getD []) false).map (fun e => [e])).getD []
    else []
  supErrs ++ cusErrs

/-- The `WARN_NON_EUR_CURRENCY` check. -/
def checkCurrency (inv : InvoiceNormalized) : List VError :=
  if strTruthy inv.currency ∧ inv.currency.getD [] ≠ str "EUR" then
    [{ code := str "WARN_NON_EUR_CURRENCY", severity := .warning, fieldPath := some (str "Invoice.DocumentCurrencyCode") }]
  else []

/-- `validateBusinessRules` (src/unnamed/part_008 lines 395–645): the checks
run independently in source order and their findings are concatenated.
`now` is the time value of `new Date()` during the run. -/
def validateBusinessRules (now : ℤ) (inv : InvoiceNormalized) : List VError :=
  checkInvoiceNumber inv ++ checkIssueDate now inv ++ checkSupplierName inv ++
    checkSupplierCountry inv ++ checkCustomerName inv ++ checkNoLines inv ++
    checkLines inv ++ checkTotals inv ++ checkVatFormats inv ++ checkCurrency inv

/-- `ValidationReport` (src/types/invoice.ts). -/
structure ValidationReport where
  errors : List VError
  warnings : List VError
  isValid : Bool
  deriving DecidableEq, Repr

/-- `buildValidationReport` (src/unnamed/part_008 lines 690–703). -/
def buildValidationReport (errors : List VError) : ValidationReport :=
  let reportErrors := errors.filter (fun e => e.severity == Severity.error)
  let warnings := errors.filter (fun e => e.severity == Severity.warning)
  { errors := reportErrors, warnings := warnings, isValid := reportErrors.length == 0 }

/-- `validateXSD` (src/validation/xsd.ts lines 18–34): the MVP stub returns a
single informational warning for every input. -/
def validateXSD (_xml : JSStr) : List VError :=
  [{ code := str "INFO_XSD_VALIDATION_SKIPPED", severity := .warning, fieldPath := some (str "Invoice") }]

/-- Validation-report assembly of the conversion pipeline
(src/unnamed/part_001 lines 214–219): business-rule findings, data-quality
findings and the XSD stub's findings are concatenated and turned into one
report. -/
def pipelineValidationReport (businessRuleErrors dataQualityErrors : List VError) (xml : JSStr) : ValidationReport :=
  buildValidationReport (businessRuleErrors ++ dataQualityErrors ++ validateXSD xml)

/-! ## UBL serializer (src/mapping/toUbl.ts)

The serializer is modelled up to the element tree it emits (the claims are
about elements and amounts, not about the `xmlbuilder2` pretty-printing). -/

/-- The `cac:Party` element built by `buildParty` (toUbl.ts lines 97–145). -/
structure UBLParty where
  partyName : JSStr
  countryCode : JSStr
  street : Option JSStr := none
  city : Option JSStr := none
  postalZone : Option JSStr := none
  vatCompanyId : Option JSStr := none
  registrationName : Option JSStr := none
  kboCompanyId : Option JSStr := none
  deriving DecidableEq, Repr

/-- One `cac:TaxSubtotal` element. -/
structure UBLTaxSubtotal where
  taxableAmount : ℚ
  taxAmount : ℚ
  categoryId : JSStr
  percent : ℚ
  deriving DecidableEq, Repr

/-- One `cac:TaxTotal` element (the zero-valued fallback block carries no
`cac:TaxSubtotal`, hence the `Option`). -/
structure UBLTaxTotal where
  taxAmount : ℚ
  subtotal : Option UBLTaxSubtotal := none
  deriving DecidableEq, Repr

/-- The `cac:LegalMonetaryTotal` element. -/
structure UBLMonetaryTotal where
  lineExtensionAmount : ℚ
  taxExclusiveAmount : ℚ
  taxInclusiveAmount : ℚ
  payableAmount : ℚ
  deriving DecidableEq, Repr

/-- One `cac:InvoiceLine` element built by `buildInvoiceLine`
(toUbl.ts lines 147–199). -/
structure UBLLine where
  id : JSStr
  quantity : ℚ
  unitCode : JSStr
  lineExtensionAmount : ℚ
  description : JSStr
  priceAmount : ℚ
  taxAmount : ℚ
  categoryId : JSStr
  percent : ℚ
  deriving DecidableEq, Repr

/-- The UBL `Invoice` document tree emitted by `convertToUBL`. -/
structure UBLInvoiceDoc where
  customizationID : JSStr
  profileID : JSStr
  id : JSStr
  issueDate : JDate
  dueDate : Option JDate := none
  documentCurrencyCode : JSStr
  invoiceTypeCode : JSStr
  supplier : UBLParty
  customer : UBLParty
  taxTotals : List UBLTaxTotal
  legalMonetaryTotal : UBLMonetaryTotal
  invoiceLines : List UBLLine
  deriving DecidableEq, Repr

/-- `buildParty` (toUbl.ts lines 97–145): name and country are always
emitted (empty string / "BE" defaults), the rest only when truthy. -/
def buildParty (party : Option Party) : UBLParty :=
  let name := (party.bind Party.name).getD []
  let cc := ((party.bind Party.address).bind Address.countryCode)
  { partyName := name
    countryCode := if strTruthy cc then cc.getD [] else str "BE"
    street := if strTruthy ((party.bind Party.address).bind Address.street) then (party.bind Party.address).bind Address.street else none
    city := if strTruthy ((party.bind Party.address).bind Address.city) then (party.bind Party.address).bind Address.city else none
    postalZone := if strTruthy ((party.bind Party.address).bind Address.postalCode) then (party.bind Party.address).bind Address.postalCode else none
    vatCompanyId := if strTruthy (party.bind Party.vatNumber) then party.bind Party.vatNumber else none
    registrationName := if name ≠ [] then some name else none
    kboCompanyId := if name ≠ [] ∧ strTruthy (party.bind Party.kboNumber) then party.bind Party.kboNumber else none }

/-- `buildInvoiceLine` (toUbl.ts lines 147–199). -/
def buildInvoiceLine (line : InvoiceLine) (lineNumber : Nat) : UBLLine :=
  let quantity := if qTruthy line.quantity then line.quantity.getD 0 else 1
  let unitPrice := line.unitPrice.getD 0
  let lineTotal := if qTruthy line.lineTotal then line.lineTotal.getD 0 else roundTo2Decimals (quantity * unitPrice)
  let vatRate := line.vatRate.getD 0
  let vatAmount := roundTo2Decimals (lineTotal * vatRate / 100)
  { id := natStr lineNumber
    quantity := quantity
    unitCode := if strTruthy line.unitOfMeasure then line.unitOfMeasure.getD [] else str "C62"
    lineExtensionAmount := lineTotal
    description := if strTruthy line.description then line.description.getD [] else str "Item"
    priceAmount := unitPrice
    taxAmount := vatAmount
    categoryId := if strTruthy line.vatCategory then line.vatCategory.getD [] else str "S"
    percent := vatRate }

/-- VAT grouping of `buildTaxTotals` (toUbl.ts lines 201–219): lines with
both `vatRate` and `lineTotal` present are grouped by rate (JS `Map`
insertion order), accumulating the taxable amount and the per-line-rounded
tax amount.  Each group is `(rate, taxable, tax)`. -/
def vatGroupsOf (lines : List InvoiceLine) : List (ℚ × ℚ × ℚ) :=
  lines.foldl
    (fun groups line =>
      if line.vatRate ≠ none ∧ line.lineTotal ≠ none then
        let rate := line.vatRate.getD 0
        let taxable := line.lineTotal.getD 0
        let tax := roundTo2Decimals (taxable * rate / 100)
        if groups.any (fun g => g.1 == rate) then
          groups.map (fun g => if g.1 == rate then (g.1, g.2.1 + taxable, g.2.2 + tax) else g)
        else groups ++ [(rate, taxable, tax)]
      else groups) []

/-- `buildTaxTotals` (toUbl.ts lines 201–278): one `TaxTotal` per VAT group
(amounts re-rounded); when there is no group but the invoice carries a
truthy `vatTotal`, a single summary block with the STATED totals and
`Percent = 0` is emitted. -/
def buildTaxTotals (invoice : InvoiceNormalized) : List UBLTaxTotal :=
  let grouped := (vatGroupsOf invoice.lines).map (fun g =>
    ({ taxAmount := roundTo2Decimals g.2.2
       subtotal := some { taxableAmount := roundTo2Decimals g.2.1, taxAmount := roundTo2Decimals g.2.2, categoryId := str "S", percent := g.1 } } : UBLTaxTotal))
  if grouped = [] ∧ qTruthy invoice.vatTotal then
    [{ taxAmount := invoice.vatTotal.getD 0
       subtotal := some { taxableAmount := invoice.subtotalExclVat.getD 0, taxAmount := invoice.vatTotal.getD 0, categoryId := str "S", percent := 0 } }]
  else grouped

/-- `buildLegalMonetaryTotal` (toUbl.ts lines 280–320). -/
def buildLegalMonetaryTotal (invoice : InvoiceNormalized) : UBLMonetaryTotal :=
  let subtotal0 :=
    if invoice.subtotalExclVat = none ∧ invoice.lines ≠ [] then some (sumLineTotals invoice.lines)
    else invoice.subtotalExclVat
  let vatTotal0 :=
    if invoice.vatTotal = none ∧ invoice.lines ≠ [] then some (sumVatRoundedPerLine invoice.lines)
    else invoice.vatTotal
  let subtotal := subtotal0.getD 0
  let vatTotal := vatTotal0.getD 0
  let total := if qTruthy invoice.totalInclVat then invoice.totalInclVat.getD 0 else roundTo2Decimals (subtotal + vatTotal)
  { lineExtensionAmount := roundTo2Decimals subtotal
    taxExclusiveAmount := roundTo2Decimals subtotal
    taxInclusiveAmount := roundTo2Decimals total
    payableAmount := roundTo2Decimals total }

/-- `convertToUBL` (src/mapping/toUbl.ts lines 11–95).  `now` is the `Date`
used for the `new Date()` issue-date default. -/
def convertToUBL (now : JDate) (invoice : InvoiceNormalized) : UBLInvoiceDoc :=
  let currency := if strTruthy invoice.currency then invoice.currency.getD [] else str "EUR"
  let safeInvoice : InvoiceNormalized :=
    { invoice with
      invoiceNumber := some (if strTruthy invoice.invoiceNumber then invoice.invoiceNumber.getD [] else str "UNKNOWN")
      issueDate := some (invoice.issueDate.getD now)
      currency := some currency
      supplier := some (invoice.supplier.getD { name := some [], address := some { countryCode := some (str "BE") } })
      customer := some (invoice.customer.getD { name := some [] }) }
  let taxTotals := buildTaxTotals safeInvoice
  { customizationID := str "urn:cen.eu:en16931:2017#compliant#urn:fdc:peppol.eu:2017:poacc:billing:3.0"
    profileID := str "urn:fdc:peppol.eu:2017:poacc:billing:01:1.0"
    id := safeInvoice.invoiceNumber.getD []
    issueDate := safeInvoice.issueDate.getD now
    dueDate := safeInvoice.dueDate
    documentCurrencyCode := currency
    invoiceTypeCode := str "380"
    supplier := buildParty safeInvoice.supplier
    customer := buildParty safeInvoice.customer
    taxTotals := if taxTotals ≠ [] then taxTotals else [{ taxAmount := 0 }]
    legalMonetaryTotal := buildLegalMonetaryTotal safeInvoice
    invoiceLines := safeInvoice.lines.mapIdx (fun i l => buildInvoiceLine l (i + 1)) }

/-! ## AI enhancer (src/parser/ai.ts) -/

/-- The party object of the AI JSON response. -/
structure AIParty where
  name : Option JSStr := none
  street : Option JSStr := none
  city : Option JSStr := none
  postalCode : Option JSStr := none
  countryCode : Option JSStr := none
  vatNumber : Option JSStr := none
  kboNumber : Option JSStr := none
  taxRegistrationId : Option JSStr := none
  deriving DecidableEq, Repr

/-- The JSON object returned by the completion service (the fixed schema of
`buildAIPrompt`); `none` covers both absent and `null` fields. -/
structure AIResponse where
  invoiceNumber : Option JSStr := none
  issueDate : Option JSStr := none
  dueDate : Option JSStr := none
  currency : Option JSStr := none
  supplier : Option AIParty := none
  customer : Option AIParty := none
  lines : Option (List InvoiceLine) := none
  subtotalExclVat : Option ℚ := none
  vatTotal : Option ℚ := none
  totalInclVat : Option ℚ := none
  iban : Option JSStr := none
  paymentReference : Option JSStr := none
  deriving DecidableEq, Repr

/-- JS `a || b` on optional strings: the left value when truthy, else `b`. -/
def strOr (a b : Option JSStr) : Option JSStr := if strTruthy a then a else b

/-- `new Date(dateStr)` for the date strings the prompt requests
(`YYYY-MM-DD`); other inputs are modelled as an invalid `Date`.  The
encoded time value is left abstract as a sum of the digits' contribution —
only validity and distinctness matter to the claims. -/
def jsNewDate (s : JSStr) : JDate :=
  if s.length = 10 ∧ (s.take 4).all isDigitCp ∧ s.get? 4 = some 45 ∧
      ((s.drop 5).take 2).all isDigitCp ∧ s.get? 7 = some 45 ∧ (s.drop 8).all isDigitCp then
    { valid := true, time := (s.foldl (fun a c => 256 * a + c) 0 : Nat) }
  else { valid := false, time := 0 }

/-- `parseDate` (src/parser/ai.ts lines 249–281): `null`-ish strings map to
`undefined`; a string parsing to a valid `Date` is used directly; the
fallback regex formats are not needed for ISO input and unparsable strings
give `undefined`. -/
def parseDate (dateStr : Option JSStr) : Option JDate :=
  match dateStr with
  | none => none
  | some s =>
      if s = [] ∨ s = str "null" then none
      else
        let d := jsNewDate s
        if d.valid then some d else none

/-- `mergeParty` (src/parser/ai.ts lines 286–303): AI sub-fields win when
truthy; a missing AI party keeps the existing party; a missing existing
party is replaced by the AI party wholesale. -/
def mergeParty (existing : Option Party) (aiData : Option AIParty) : Option Party :=
  match aiData with
  | none => existing
  | some ai =>
      match existing with
      | none =>
          some { name := ai.name
                 address := some { street := ai.street, city := ai.city, postalCode := ai.postalCode, countryCode := ai.countryCode }
                 vatNumber := ai.vatNumber, kboNumber := ai.kboNumber, taxRegistrationId := ai.taxRegistrationId }
      | some ex =>
          some { name := strOr ai.name ex.name
                 address := some
                   { street := strOr ai.street ((ex.address.bind Address.street))
                     city := strOr ai.city ((ex.address.bind Address.city))
                     postalCode := strOr ai.postalCode ((ex.address.bind Address.postalCode))
                     countryCode := strOr ai.countryCode ((ex.address.bind Address.countryCode)) }
                 vatNumber := strOr ai.vatNumber ex.vatNumber
                 kboNumber := strOr ai.kboNumber ex.kboNumber
                 taxRegistrationId := strOr ai.taxRegistrationId ex.taxRegistrationId }

/-- `mergeAIResults` (src/parser/ai.ts lines 220–244): scalar string fields
merge with JS `||` (truthy AI value wins), the three totals merge with the
explicit `!== undefined && !== null` check (any present value wins, `0`
included), a non-empty AI line array replaces the lines wholesale, parties
merge per sub-field. -/
def mergeAIResults (existing : InvoiceNormalized) (aiData : AIResponse) : InvoiceNormalized :=
  { existing with
    invoiceNumber := strOr aiData.invoiceNumber existing.invoiceNumber
    issueDate := if strTruthy aiData.issueDate then parseDate aiData.issueDate else existing.issueDate
    dueDate := if strTruthy aiData.dueDate then parseDate aiData.dueDate else existing.dueDate
    currency := strOr aiData.currency (strOr existing.currency (some (str "EUR")))
    supplier := mergeParty existing.supplier aiData.supplier
    customer := mergeParty existing.customer aiData.customer
    lines := if aiData.lines.getD [] ≠ [] then aiData.lines.getD [] else existing.lines
    subtotalExclVat := if aiData.subtotalExclVat ≠ none then aiData.subtotalExclVat else existing.subtotalExclVat
    vatTotal := if aiData.vatTotal ≠ none then aiData.vatTotal else existing.vatTotal
    totalInclVat := if aiData.totalInclVat ≠ none then aiData.totalInclVat else existing.totalInclVat
    iban := strOr aiData.iban existing.iban
    paymentReference := strOr aiData.paymentReference existing.paymentReference }

/-- The `aiFields` list of `mergeAIMappingFields` (ai.ts lines 313–355):
one confidence-0.9 entry per truthy AI value among the four tracked paths,
in source order. -/
def aiFieldsOf (aiData : AIResponse) (source : JSStr) : List MappingField :=
  (if strTruthy aiData.invoiceNumber then
    [{ field := str "invoiceNumber", value := aiData.invoiceNumber.getD [], source := source, confidence := 9/10, rawValue := aiData.invoiceNumber }]
  else []) ++
  (if strTruthy aiData.issueDate then
    [{ field := str "issueDate", value := aiData.issueDate.getD [], source := source, confidence := 9/10, rawValue := aiData.issueDate }]
  else []) ++
  (if strTruthy (aiData.supplier.bind AIParty.name) then
    [{ field := str "supplier.name", value := (aiData.supplier.bind AIParty.name).getD [], source := source, confidence := 9/10, rawValue := aiData.supplier.bind AIParty.name }]
  else []) ++
  (if strTruthy (aiData.customer.bind AIParty.name) then
    [{ field := str "customer.name", value := (aiData.customer.bind AIParty.name).getD [], source := source, confidence := 9/10, rawValue := aiData.customer.bind AIParty.name }]
  else [])

/-- One step of the merge loops of `mergeAIMappingFields`: append the entry
unless its path was already processed, recording the path. -/
def mergeStep (st : List MappingField × List JSStr) (f : MappingField) : List MappingField × List JSStr :=
  if f.field ∈ st.2 then st else (st.1 ++ [f], st.2 ++ [f.field])

/-- `mergeAIMappingFields` (src/parser/ai.ts lines 308–383): all AI fields
first (marking their paths processed), then existing fields whose path was
not processed, then a final AI pass that can add nothing new. -/
def mergeAIMappingFields (existing : List MappingField) (aiData : AIResponse) (source : JSStr) : List MappingField :=
  let aiFields := aiFieldsOf aiData source
  let st1 := aiFields.foldl (fun st f => (st.1 ++ [f], st.2 ++ [f.field])) (([], []) : List MappingField × List JSStr)
  let st2 := existing.foldl mergeStep st1
  let st3 := aiFields.foldl mergeStep st2
  st3.1

/-- Outcome of a fallible JS step: a value or a thrown exception. -/
inductive JSResult (α : Type) where
  | ok : α → JSResult α
  | exn : JSStr → JSResult α
  deriving DecidableEq, Repr

/-- Result triple of `parseWithAI`. -/
structure AIParseResult where
  invoice : InvoiceNormalized
  mappingFields : List MappingField
  aiUsed : Bool
  deriving DecidableEq, Repr

/-- The PDF MIME type. -/
def pdfMime : JSStr := str "application/pdf"

/-- The spreadsheet MIME type. -/
def xlsxMime : JSStr := str "application/vnd.openxmlformats-officedocument.spreadsheetml.sheet"

/-- `parseWithAI` (src/parser/ai.ts lines 7–131), with its effects
reified: `geminiKey` is the configured credential, `extractResult` the
outcome of the text-extraction step for the given MIME type, and
`apiResult` the outcome of `callGeminiAPI` (network call, internal
text-only retry and JSON parsing included; an exception there, or the
`!aiResponse` guard, is `exn`).  A missing/blank credential returns the
candidate unchanged; a text-extraction exception is caught LOCALLY and the
function continues with empty text; an `apiResult` exception falls into
the outer catch and returns the candidate unchanged with `aiUsed = false`. -/
def parseWithAI (geminiKey : Option JSStr) (mimeType : JSStr)
    (extractResult : JSResult JSStr) (apiResult : JSResult AIResponse)
    (existingInvoice : InvoiceNormalized) (existingMappingFields : List MappingField) :
    AIParseResult :=
  let key := geminiKey.map trimStr
  if ¬ strTruthy key then
    { invoice := existingInvoice, mappingFields := existingMappingFields, aiUsed := false }
  else
    let _extractedText : JSStr :=
      if mimeType = pdfMime ∨ mimeType = xlsxMime then
        match extractResult with
        | .ok t => t
        | .exn _ => []
      else []
    match apiResult with
    | .exn _ =>
        { invoice := existingInvoice, mappingFields := existingMappingFields, aiUsed := false }
    | .ok aiResponse =>
        { invoice := mergeAIResults existingInvoice aiResponse
          mappingFields := mergeAIMappingFields existingMappingFields aiResponse (str "ai-gemini")
          aiUsed := true }

/-! ## Heap-instrumented normalizer (for the aliasing behaviour of
`normalizeInvoice`)

`normalizeInvoice` starts from a SHALLOW copy (`{ ...invoice }`) of its
argument, so the copy's `supplier`/`customer` fields still reference the
caller's party objects, and the assignments
`normalized.supplier.vatNumber = ...` / `normalized.customer.vatNumber = ...`
write through those shared references.  Here parties live in a heap
(`Nat → Party`) and the invoice record holds references. -/

/-- `InvoiceNormalized` with by-reference parties. -/
structure InvoiceRef where
  invoiceNumber : Option JSStr := none
  issueDate : Option JDate := none
  dueDate : Option JDate := none
  currency : Option JSStr := none
  supplier : Option Nat := none
  customer : Option Nat := none
  paymentReference : Option JSStr := none
  iban : Option JSStr := none
  bic : Option JSStr := none
  lines : List InvoiceLine := []
  subtotalExclVat : Option ℚ := none
  vatTotal : Option ℚ := none
  totalInclVat : Option ℚ := none
  deriving Repr

/-- `calculateTotals` on the by-reference record (same arithmetic as
`calculateTotals`; it touches no party object). -/
def calculateTotalsRef (invoice : InvoiceRef) : InvoiceRef :=
  let subtotal' :=
    if invoice.lines ≠ [] ∧ invoice.subtotalExclVat = none then
      some (roundTo2Decimals (sumLineTotals invoice.lines))
    else invoice.subtotalExclVat
  let vatTotal' :=
    if invoice.lines ≠ [] ∧ invoice.vatTotal = none then
      some (roundTo2Decimals (sumVatUnrounded invoice.lines))
    else invoice.vatTotal
  let totalInclVat' :=
    if subtotal' ≠ none ∧ vatTotal' ≠ none ∧ invoice.totalInclVat = none then
      some (roundTo2Decimals (subtotal'.getD 0 + vatTotal'.getD 0))
    else invoice.totalInclVat
  { invoice with
    subtotalExclVat := subtotal'
    vatTotal := vatTotal'
    totalInclVat := totalInclVat' }

/-- The VAT-number normalization step of `normalizeInvoice` on one party
reference: when the referenced party has a truthy `vatNumber`, the
normalized value is written back THROUGH the reference (mutating the
caller's object). -/
def normalizePartyVat (h : Nat → Party) (ref : Option Nat) : Nat → Party :=
  match ref with
  | some a =>
      if strTruthy (h a).vatNumber then
        fun x => if x = a then { h a with vatNumber := some (normalizeVATNumber ((h a).vatNumber.getD [])) } else h x
      else h
  | none => h

/-- `normalizeInvoice` (src/mapping/normalize.ts lines 6–43) with the heap
made explicit: returns the final heap together with the new top-level
record.  Every step except the two VAT write-backs builds new values. -/
def normalizeInvoiceH (h : Nat → Party) (invoice : InvoiceRef) : (Nat → Party) × InvoiceRef :=
  let n1 := { invoice with currency := some (upperStr (if strTruthy invoice.currency then invoice.currency.getD [] else str "EUR")) }
  let h1 := normalizePartyVat h n1.supplier
  let h2 := normalizePartyVat h1 n1.customer
  let n4 :=
    if strTruthy n1.iban then { n1 with iban := some (normalizeIBAN (n1.iban.getD [])) } else n1
  let n5 := { n4 with lines := n4.lines.mapIdx (fun i l => normalizeLine l i) }
  (h2, calculateTotalsRef n5)

/-- Some finding with the given code is present. -/
def hasCode (errs : List VError) (c : JSStr) : Prop := ∃ e ∈ errs, e.code = c

/-- The post-state of `calculateTotals`: with at least one line both the
subtotal and the VAT total are populated, and whenever both are populated
so is the grand total. -/
def TotalsSettled (z : InvoiceNormalized) : Prop :=
  (z.lines ≠ [] → z.subtotalExclVat ≠ none ∧ z.vatTotal ≠ none) ∧
    (z.subtotalExclVat ≠ none ∧ z.vatTotal ≠ none → z.totalInclVat ≠ none)

/-- The six required-field codes of the business-rule validator. -/
def requiredFieldCode (c : JSStr) : Prop :=
  c = str "WARN_MISSING_INVOICE_ID" ∨ c = str "WARN_MISSING_ISSUE_DATE" ∨
  c = str "WARN_MISSING_SUPPLIER_NAME" ∨ c = str "WARN_MISSING_SUPPLIER_COUNTRY" ∨
  c = str "WARN_MISSING_CUSTOMER_NAME" ∨ c = str "WARN_NO_INVOICE_LINES"

/-- One line of the C3 counterexample: line total 1.21, VAT rate 21%. -/
def c3cexLine : InvoiceLine := { lineTotal := some (121/100), vatRate := some 21 }

/-- Five such lines. -/
def c3cexLines : List InvoiceLine := [c3cexLine, c3cexLine, c3cexLine, c3cexLine, c3cexLine]

/-- The C3 counterexample invoice: its three stated totals are EXACTLY the
normalizer's line-derived values. -/
def c3cexInvoice : InvoiceNormalized :=
  { lines := c3cexLines, subtotalExclVat := some (605/100), vatTotal := some (127/100),
    totalInclVat := some (732/100) }


/-! ## Character and string lemmas -/

theorem upperChar_idem (c : Nat) : upperChar (upperChar c) = upperChar c := by
  unfold upperChar
  split_ifs <;> omega

theorem jsIsSpace_upperChar (c : Nat) : jsIsSpace (upperChar c) = jsIsSpace c := by
  unfold upperChar
  split_ifs with h
  · unfold jsIsSpace
    have h32 : ¬(c - 32 = 32) := by omega
    have h9 : ¬(c - 32 = 9) := by omega
    have h10 : ¬(c - 32 = 10) := by omega
    have h13 : ¬(c - 32 = 13) := by omega
    have h11 : ¬(c - 32 = 11) := by omega
    have h12 : ¬(c - 32 = 12) := by omega
    have g32 : ¬(c = 32) := by omega
    have g9 : ¬(c = 9) := by omega
    have g10 : ¬(c = 10) := by omega
    have g13 : ¬(c = 13) := by omega
    have g11 : ¬(c = 11) := by omega
    have g12 : ¬(c = 12) := by omega
    simp [h32, h9, h10, h13, h11, h12, g32, g9, g10, g13, g11, g12]
  · rfl

theorem upperChar_of_digit (c : Nat) (h : isDigitCp c = true) : upperChar c = c := by
  unfold isDigitCp at h
  unfold upperChar
  rw [if_neg]
  simp only [Bool.and_eq_true, decide_eq_true_eq] at h
  omega

theorem not_space_of_digit (c : Nat) (h : isDigitCp c = true) : jsIsSpace c = false := by
  unfold isDigitCp at h
  simp only [Bool.and_eq_true, decide_eq_true_eq] at h
  unfold jsIsSpace
  have h32 : ¬(c = 32) := by omega
  have h9 : ¬(c = 9) := by omega
  have h10 : ¬(c = 10) := by omega
  have h13 : ¬(c = 13) := by omega
  have h11 : ¬(c = 11) := by omega
  have h12 : ¬(c = 12) := by omega
  simp [h32, h9, h10, h13, h11, h12]

theorem upperStr_idem (s : JSStr) : upperStr (upperStr s) = upperStr s := by
  induction s with
  | nil => rfl
  | cons c t ih => simp_all [upperStr, upperChar_idem]

theorem stripStr_upperStr (s : JSStr) : stripStr (upperStr s) = upperStr (stripStr s) := by
  induction s with
  | nil => rfl
  | cons c t ih =>
      simp only [upperStr, stripStr, List.map_cons, List.filter_cons, jsIsSpace_upperChar] at *
      cases h : jsIsSpace c <;> simp_all

theorem stripStr_idem (s : JSStr) : stripStr (stripStr s) = stripStr s := by
  unfold stripStr
  rw [List.filter_filter]
  simp

theorem upperStr_fix (l : JSStr) (h : ∀ c ∈ l, upperChar c = c) : upperStr l = l := by
  induction l with
  | nil => rfl
  | cons c t ih =>
      have ht := ih (fun d hd => h d (by simp [hd]))
      simp only [upperStr, List.map_cons] at ht ⊢
      rw [h c (by simp), ht]

theorem stripStr_fix (l : JSStr) (h : ∀ c ∈ l, jsIsSpace c = false) : stripStr l = l := by
  unfold stripStr
  rw [List.filter_eq_self.mpr]
  intro a ha
  simp [h a ha]

theorem upperStr_length (s : JSStr) : (upperStr s).length = s.length := by
  simp [upperStr]

/-! ## Rounding lemmas -/

theorem roundTo2Decimals_idem (v : ℚ) :
    roundTo2Decimals (roundTo2Decimals v) = roundTo2Decimals v := by
  unfold roundTo2Decimals jsRound
  set n : ℤ := ⌊v * 100 + 1/2⌋ with hn
  have h1 : ((n : ℚ) / 100) * 100 = (n : ℚ) := by
    field_simp
  rw [h1]
  have h2 : ⌊(n : ℚ) + 1/2⌋ = n := by
    rw [Int.floor_int_add]
    norm_num
  rw [h2]

theorem normalizeVATNumber_fixes_upper_strip (v : JSStr) :
    upperStr (stripStr (upperStr (stripStr v))) = upperStr (stripStr v) := by
  rw [stripStr_upperStr, stripStr_idem, upperStr_idem]

theorem beShape_digits (n : JSStr) (h : beShape n = true) : ∀ c ∈ n, isDigitCp c = true := by
  unfold beShape at h
  simp only [Bool.and_eq_true] at h
  exact fun c hc => List.all_eq_true.mp h.2 c hc

theorem nlShape_chars (n : JSStr) (h : nlShape n = true) :
    ∀ c ∈ n, isDigitCp c = true ∨ c = 66 := by
  unfold nlShape at h
  rcases hdd : n.drop 9 with _ | ⟨b, tl⟩
  · rw [hdd] at h; simp at h
  · rcases tl with _ | ⟨d1, tl2⟩
    · rw [hdd] at h; simp at h
    · rcases tl2 with _ | ⟨d2, tl3⟩
      · rw [hdd] at h; simp at h
      · rcases tl3 with _ | ⟨e, tl4⟩
        · rw [hdd] at h
          simp only [Bool.and_eq_true, beq_iff_eq] at h
          obtain ⟨⟨hlen, htake⟩, ⟨hb, hd1⟩, hd2⟩ := h
          intro c hc
          rw [← List.take_append_drop 9 n] at hc
          rcases List.mem_append.mp hc with hc | hc
          · exact Or.inl (List.all_eq_true.mp htake c hc)
          · rw [hdd] at hc
            rcases hc with _ | ⟨_, hc⟩
            · exact Or.inr hb
            · rcases hc with _ | ⟨_, hc⟩
              · exact Or.inl hd1
              · rcases hc with _ | ⟨_, hc⟩
                · exact Or.inl hd2
                · cases hc
        · rw [hdd] at h; simp at h

theorem upperChar_of_digit_or_B (c : Nat) (h : isDigitCp c = true ∨ c = 66) : upperChar c = c := by
  rcases h with h | h
  · exact upperChar_of_digit c h
  · subst h; decide

theorem not_space_of_digit_or_B (c : Nat) (h : isDigitCp c = true ∨ c = 66) : jsIsSpace c = false := by
  rcases h with h | h
  · exact not_space_of_digit c h
  · subst h; decide

/-- Reduction of `normalizeVATNumber` when its argument is already
whitespace-free and uppercase. -/
theorem normalizeVATNumber_of_fixed (n : JSStr) (h : upperStr (stripStr n) = n) :
    normalizeVATNumber n =
      (if twoUpperStart n then n
       else if beShape n then str "BE" ++ n
       else if nlShape n then str "NL" ++ n
       else n) := by
  unfold normalizeVATNumber
  rw [h]

theorem normalizeVATNumber_idem (v : JSStr) :
    normalizeVATNumber (normalizeVATNumber v) = normalizeVATNumber v := by
  have hfix0 := normalizeVATNumber_fixes_upper_strip v
  set n := upperStr (stripStr v) with hn
  have hout : normalizeVATNumber v =
      (if twoUpperStart n then n
       else if beShape n then str "BE" ++ n
       else if nlShape n then str "NL" ++ n
       else n) := rfl
  by_cases h1 : twoUpperStart n = true
  · rw [hout, if_pos h1, normalizeVATNumber_of_fixed n hfix0, if_pos h1]
  · by_cases h2 : beShape n = true
    · rw [hout, if_neg h1, if_pos h2]
      have hchars : ∀ c ∈ str "BE" ++ n, isDigitCp c = true ∨ c = 66 ∨ c = 69 := by
        intro c hc
        rcases List.mem_append.mp hc with hc | hc
        · have : c = 66 ∨ c = 69 := by
            have hbe : str "BE" = [66, 69] := by decide
            rw [hbe] at hc
            rcases hc with _ | ⟨_, hc⟩
            · exact Or.inl rfl
            · rcases hc with _ | ⟨_, hc⟩
              · exact Or.inr rfl
              · cases hc
          tauto
        · exact Or.inl (beShape_digits n h2 c hc)
      have hfixBE : upperStr (stripStr (str "BE" ++ n)) = str "BE" ++ n := by
        rw [stripStr_fix _ (fun c hc => by
          rcases hchars c hc with h | h | h
          · exact not_space_of_digit c h
          · subst h; decide
          · subst h; decide)]
        exact upperStr_fix _ (fun c hc => by
          rcases hchars c hc with h | h | h
          · exact upperChar_of_digit c h
          · subst h; decide
          · subst h; decide)
      have htwo : twoUpperStart (str "BE" ++ n) = true := by
        have hbe : str "BE" = [66, 69] := by decide
        rw [hbe]
        simp [twoUpperStart, isUpperCp]
      rw [normalizeVATNumber_of_fixed _ hfixBE, if_pos htwo]
    · by_cases h3 : nlShape n = true
      · rw [hout, if_neg h1, if_neg h2, if_pos h3]
        have hchars : ∀ c ∈ str "NL" ++ n, (isDigitCp c = true ∨ c = 66) ∨ c = 78 ∨ c = 76 := by
          intro c hc
          rcases List.mem_append.mp hc with hc | hc
          · have hnl : str "NL" = [78, 76] := by decide
            rw [hnl] at hc
            rcases hc with _ | ⟨_, hc⟩
            · exact Or.inr (Or.inl rfl)
            · rcases hc with _ | ⟨_, hc⟩
              · exact Or.inr (Or.inr rfl)
              · cases hc
          · exact Or.inl (nlShape_chars n h3 c hc)
        have hfixNL : upperStr (stripStr (str "NL" ++ n)) = str "NL" ++ n := by
          rw [stripStr_fix _ (fun c hc => by
            rcases hchars c hc with h | h | h
            · exact not_space_of_digit_or_B c h
            · subst h; decide
            · subst h; decide)]
          exact upperStr_fix _ (fun c hc => by
            rcases hchars c hc with h | h | h
            · exact upperChar_of_digit_or_B c h
            · subst h; decide
            · subst h; decide)
        have htwo : twoUpperStart (str "NL" ++ n) = true := by
          have hnl : str "NL" = [78, 76] := by decide
          rw [hnl]
          simp [twoUpperStart, isUpperCp]
        rw [normalizeVATNumber_of_fixed _ hfixNL, if_pos htwo]
      · rw [hout, if_neg h1, if_neg h2, if_neg h3,
          normalizeVATNumber_of_fixed n hfix0, if_neg h1, if_neg h2, if_neg h3]

theorem normalizeIBAN_idem (s : JSStr) :
    normalizeIBAN (normalizeIBAN s) = normalizeIBAN s := by
  unfold normalizeIBAN
  rw [stripStr_upperStr, stripStr_idem, upperStr_idem]

theorem normalizeLine_idem (l : InvoiceLine) (i j : Nat) :
    normalizeLine (normalizeLine l i) j = normalizeLine l i := by
  rcases l with ⟨d, q, u, uom, vr, vc, lt, cf, src⟩
  cases q <;> cases u <;> cases lt <;> cases vr <;>
    simp [normalizeLine, strTruthy, roundTo2Decimals_idem] <;>
    split_ifs <;> simp_all [roundTo2Decimals_idem]

theorem mapIdx_of_const {α β : Type} (g : α → β) (l : List α) :
    l.mapIdx (fun _ a => g a) = l.map g := by
  rw [List.mapIdx_eq_enum_map]
  have h : List.map (Function.uncurry fun _ a => g a) l.enum = List.map (g ∘ Prod.snd) l.enum := by
    apply List.map_congr_left
    intro a _
    rfl
  rw [h, ← List.map_map, List.enum_map_snd]

theorem strTruthy_iff (o : Option JSStr) : strTruthy o = true ↔ o.getD [] ≠ [] := by
  simp [strTruthy]

theorem normalizePartyValue_idem (p : Party) :
    normalizePartyValue (normalizePartyValue p) = normalizePartyValue p := by
  unfold normalizePartyValue
  by_cases h : strTruthy p.vatNumber = true
  · simp only [h, if_true]
    by_cases h2 : strTruthy (some (normalizeVATNumber (p.vatNumber.getD []))) = true
    · simp [h2, normalizeVATNumber_idem]
    · simp [h2]
  · simp [h]

theorem normalizeLine_index_irrel (l : InvoiceLine) (i j : Nat) :
    normalizeLine l i = normalizeLine l j := rfl

theorem mapIdx_normalizeLine (ls : List InvoiceLine) :
    ls.mapIdx (fun i l => normalizeLine l i) = ls.map (fun l => normalizeLine l 0) :=
  mapIdx_of_const (fun l => normalizeLine l 0) ls

theorem calculateTotals_settled (z : InvoiceNormalized) : TotalsSettled (calculateTotals z) := by
  unfold calculateTotals TotalsSettled
  split_ifs <;> simp_all <;> split_ifs <;> simp_all

theorem calculateTotals_of_settled (z : InvoiceNormalized) (h : TotalsSettled z) :
    calculateTotals z = z := by
  obtain ⟨h1, h2⟩ := h
  have hsub : (if z.lines ≠ [] ∧ z.subtotalExclVat = none then some (roundTo2Decimals (sumLineTotals z.lines)) else z.subtotalExclVat) = z.subtotalExclVat := by
    split_ifs with hc
    · exact absurd hc.2 (h1 hc.1).1
    · rfl
  have hvat : (if z.lines ≠ [] ∧ z.vatTotal = none then some (roundTo2Decimals (sumVatUnrounded z.lines)) else z.vatTotal) = z.vatTotal := by
    split_ifs with hc
    · exact absurd hc.2 (h1 hc.1).2
    · rfl
  have htot : (if z.subtotalExclVat ≠ none ∧ z.vatTotal ≠ none ∧ z.totalInclVat = none then some (roundTo2Decimals (z.subtotalExclVat.getD 0 + z.vatTotal.getD 0)) else z.totalInclVat) = z.totalInclVat := by
    split_ifs with hc
    · exact absurd hc.2.2 (h2 ⟨hc.1, hc.2.1⟩)
    · rfl
  unfold calculateTotals
  simp only [hsub, hvat, htot]

theorem normalizeInvoice_currency (x : InvoiceNormalized) :
    (normalizeInvoice x).currency =
      some (upperStr (if strTruthy x.currency then x.currency.getD [] else str "EUR")) := rfl

theorem normalizeInvoice_supplier (x : InvoiceNormalized) :
    (normalizeInvoice x).supplier = x.supplier.map normalizePartyValue := rfl

theorem normalizeInvoice_customer (x : InvoiceNormalized) :
    (normalizeInvoice x).customer = x.customer.map normalizePartyValue := rfl

theorem normalizeInvoice_iban (x : InvoiceNormalized) :
    (normalizeInvoice x).iban =
      (if strTruthy x.iban then some (normalizeIBAN (x.iban.getD [])) else x.iban) := rfl

theorem normalizeInvoice_lines (x : InvoiceNormalized) :
    (normalizeInvoice x).lines = x.lines.mapIdx (fun i l => normalizeLine l i) := rfl

theorem normalizeInvoice_settled (x : InvoiceNormalized) :
    TotalsSettled (normalizeInvoice x) := calculateTotals_settled _

/-! ## Claim C2: idempotence of normalization -/

/-- C2: normalization is idempotent — a second pass of `normalizeInvoice`
changes nothing: currency, VAT numbers, IBAN, per-line defaults and derived
line totals, and the three derived header totals are all stable. -/
theorem C2_normalizeInvoice_idem (x : InvoiceNormalized) :
    normalizeInvoice (normalizeInvoice x) = normalizeInvoice x := by
  set y := normalizeInvoice x with hy
  have hC : some (upperStr (if strTruthy y.currency then y.currency.getD [] else str "EUR")) = y.currency := by
    rw [hy, normalizeInvoice_currency]
    set c0 := (if strTruthy x.currency then x.currency.getD [] else str "EUR") with hc0
    have hne : c0 ≠ [] := by
      rw [hc0]
      split_ifs with h
      · exact (strTruthy_iff _).mp h
      · simp [str]
    have htr : strTruthy (some (upperStr c0)) = true := by
      rw [strTruthy_iff]
      simp only [Option.getD_some]
      intro hcontra
      apply hne
      have hlen := congrArg List.length hcontra
      rw [upperStr_length] at hlen
      exact List.length_eq_zero.mp hlen
    rw [if_pos htr]
    simp [upperStr_idem]
  have hS : y.supplier.map normalizePartyValue = y.supplier := by
    rw [hy, normalizeInvoice_supplier]
    cases x.supplier <;> simp [normalizePartyValue_idem]
  have hK : y.customer.map normalizePartyValue = y.customer := by
    rw [hy, normalizeInvoice_customer]
    cases x.customer <;> simp [normalizePartyValue_idem]
  have hI : (if strTruthy y.iban then some (normalizeIBAN (y.iban.getD [])) else y.iban) = y.iban := by
    rw [hy, normalizeInvoice_iban]
    by_cases hx : strTruthy x.iban = true
    · simp only [hx, if_true, Option.getD_some]
      by_cases h2 : strTruthy (some (normalizeIBAN (x.iban.getD []))) = true
      · simp [h2, normalizeIBAN_idem]
      · simp [h2]
    · simp [hx]
  have hL : y.lines.mapIdx (fun i l => normalizeLine l i) = y.lines := by
    rw [hy, normalizeInvoice_lines, mapIdx_normalizeLine, mapIdx_normalizeLine, List.map_map]
    apply List.map_congr_left
    intro a _
    exact normalizeLine_idem a 0 0
  calc normalizeInvoice y
      = calculateTotals
          { y with
            currency := some (upperStr (if strTruthy y.currency then y.currency.getD [] else str "EUR"))
            supplier := y.supplier.map normalizePartyValue
            customer := y.customer.map normalizePartyValue
            iban := (if strTruthy y.iban then some (normalizeIBAN (y.iban.getD [])) else y.iban)
            lines := y.lines.mapIdx (fun i l => normalizeLine l i) } := rfl
    _ = calculateTotals
          { y with
            currency := y.currency
            supplier := y.supplier
            customer := y.customer
            iban := y.iban
            lines := y.lines } := by rw [hC, hS, hK, hI, hL]
    _ = calculateTotals y := rfl
    _ = y := calculateTotals_of_settled y (by rw [hy]; exact normalizeInvoice_settled x)

/-! ## Validator characterization lemmas -/

theorem codes_checkInvoiceNumber (inv : InvoiceNormalized) (e : VError)
    (he : e ∈ checkInvoiceNumber inv) : e.code = str "WARN_MISSING_INVOICE_ID" := by
  unfold checkInvoiceNumber at he
  split_ifs at he <;> simp_all

theorem codes_checkIssueDate (now : ℤ) (inv : InvoiceNormalized) (e : VError)
    (he : e ∈ checkIssueDate now inv) :
    e.code = str "WARN_MISSING_ISSUE_DATE" ∨ e.code = str "ERR_INVALID_ISSUE_DATE" ∨
      e.code = str "ERR_FUTURE_ISSUE_DATE" := by
  unfold checkIssueDate at he
  rcases hd : inv.issueDate with _ | d <;> rw [hd] at he
  · simp_all
  · by_cases hv : d.valid = true <;> by_cases ht : d.time > now <;> simp_all

theorem codes_checkSupplierName (inv : InvoiceNormalized) (e : VError)
    (he : e ∈ checkSupplierName inv) : e.code = str "WARN_MISSING_SUPPLIER_NAME" := by
  unfold checkSupplierName at he
  split_ifs at he <;> simp_all

theorem codes_checkSupplierCountry (inv : InvoiceNormalized) (e : VError)
    (he : e ∈ checkSupplierCountry inv) : e.code = str "WARN_MISSING_SUPPLIER_COUNTRY" := by
  unfold checkSupplierCountry at he
  split_ifs at he <;> simp_all

theorem codes_checkCustomerName (inv : InvoiceNormalized) (e : VError)
    (he : e ∈ checkCustomerName inv) : e.code = str "WARN_MISSING_CUSTOMER_NAME" := by
  unfold checkCustomerName at he
  split_ifs at he <;> simp_all

theorem codes_checkNoLines (inv : InvoiceNormalized) (e : VError)
    (he : e ∈ checkNoLines inv) : e.code = str "WARN_NO_INVOICE_LINES" := by
  unfold checkNoLines at he
  split_ifs at he <;> simp_all

theorem codes_checkLine (i : Nat) (l : InvoiceLine) (e : VError)
    (he : e ∈ checkLine i l) :
    e.code = str "WARN_MISSING_LINE_DESCRIPTION" ∨ e.code = str "ERR_INVALID_LINE_AMOUNT" := by
  unfold checkLine at he
  simp only [List.mem_append] at he
  rcases he with he | he <;> split_ifs at he <;> simp_all

theorem codes_checkLines (inv : InvoiceNormalized) (e : VError)
    (he : e ∈ checkLines inv) :
    e.code = str "WARN_MISSING_LINE_DESCRIPTION" ∨ e.code = str "ERR_INVALID_LINE_AMOUNT" := by
  unfold checkLines at he
  rw [List.mem_flatten] at he
  obtain ⟨l', hl', hel⟩ := he
  rw [List.mapIdx_eq_enum_map, List.mem_map] at hl'
  obtain ⟨⟨i, l⟩, _, hmk⟩ := hl'
  rw [← hmk] at hel
  exact codes_checkLine i l e hel

theorem codes_checkTotals (inv : InvoiceNormalized) (e : VError)
    (he : e ∈ checkTotals inv) :
    e.code = str "ERR_INVALID_SUBTOTAL" ∨ e.code = str "ERR_INVALID_VAT_TOTAL" ∨
      e.code = str "ERR_INVALID_TOTAL" := by
  unfold checkTotals at he
  by_cases hl : inv.lines = []
  · rw [if_pos hl] at he
    simp at he
  · rw [if_neg hl] at he
    simp only [List.mem_append] at he
    rcases he with (he | he) | he
    · unfold subtotalErrs at he
      split_ifs at he <;> simp_all
    · unfold vatTotalErrs at he
      split_ifs at he <;> simp_all
    · unfold grandTotalErrs at he
      split_ifs at he <;> simp_all

theorem codes_checkVatFormats (inv : InvoiceNormalized) (e : VError)
    (he : e ∈ checkVatFormats inv) : e.code = str "ERR_INVALID_VAT_FORMAT" := by
  unfold checkVatFormats at he
  simp only [List.mem_append] at he
  rcases he with he | he <;> split_ifs at he <;>
    simp_all [validateVATNumberFormat] <;> split_ifs at he <;> simp_all

theorem codes_checkCurrency (inv : InvoiceNormalized) (e : VError)
    (he : e ∈ checkCurrency inv) : e.code = str "WARN_NON_EUR_CURRENCY" := by
  unfold checkCurrency at he
  split_ifs at he <;> simp_all

theorem hasCode_append (a b : List VError) (c : JSStr) :
    hasCode (a ++ b) c ↔ hasCode a c ∨ hasCode b c := by
  unfold hasCode
  constructor
  · rintro ⟨e, he, hc⟩
    rcases List.mem_append.mp he with h | h
    · exact Or.inl ⟨e, h, hc⟩
    · exact Or.inr ⟨e, h, hc⟩
  · rintro (⟨e, he, hc⟩ | ⟨e, he, hc⟩)
    · exact ⟨e, List.mem_append.mpr (Or.inl he), hc⟩
    · exact ⟨e, List.mem_append.mpr (Or.inr he), hc⟩

theorem not_hasCode_of_codes (l : List VError) (c : JSStr)
    (h : ∀ e ∈ l, e.code ≠ c) : ¬ hasCode l c := by
  rintro ⟨e, he, hc⟩
  exact h e he hc

/-- Membership of the three aggregate error codes in `validateBusinessRules`
reduces to membership in the totals segment. -/
theorem hasCode_validateBR_totals (now : ℤ) (inv : InvoiceNormalized) (c : JSStr)
    (hc : c = str "ERR_INVALID_SUBTOTAL" ∨ c = str "ERR_INVALID_VAT_TOTAL" ∨
      c = str "ERR_INVALID_TOTAL") :
    (hasCode (validateBusinessRules now inv) c ↔ hasCode (checkTotals inv) c) := by
  have hother : ∀ (l : List VError),
      (∀ e ∈ l, e.code = str "WARN_MISSING_INVOICE_ID" ∨ e.code = str "WARN_MISSING_ISSUE_DATE" ∨
        e.code = str "ERR_INVALID_ISSUE_DATE" ∨ e.code = str "ERR_FUTURE_ISSUE_DATE" ∨
        e.code = str "WARN_MISSING_SUPPLIER_NAME" ∨ e.code = str "WARN_MISSING_SUPPLIER_COUNTRY" ∨
        e.code = str "WARN_MISSING_CUSTOMER_NAME" ∨ e.code = str "WARN_NO_INVOICE_LINES" ∨
        e.code = str "WARN_MISSING_LINE_DESCRIPTION" ∨ e.code = str "ERR_INVALID_LINE_AMOUNT" ∨
        e.code = str "ERR_INVALID_VAT_FORMAT" ∨ e.code = str "WARN_NON_EUR_CURRENCY") →
      ¬ hasCode l c := by
    intro l hl
    apply not_hasCode_of_codes
    intro e he
    rcases hc with hc | hc | hc <;> subst hc <;>
      rcases hl e he with h | h | h | h | h | h | h | h | h | h | h | h <;> rw [h] <;> decide
  unfold validateBusinessRules
  rw [hasCode_append, hasCode_append, hasCode_append, hasCode_append, hasCode_append,
    hasCode_append, hasCode_append, hasCode_append, hasCode_append]
  have h1 := hother _ (fun e he => Or.inl (codes_checkInvoiceNumber inv e he))
  have h2 := hother _ (fun e he => by
    rcases codes_checkIssueDate now inv e he with h | h | h
    · exact Or.inr (Or.inl h)
    · exact Or.inr (Or.inr (Or.inl h))
    · exact Or.inr (Or.inr (Or.inr (Or.inl h))))
  have h3 := hother _ (fun e he => by
    have := codes_checkSupplierName inv e he
    tauto)
  have h4 := hother _ (fun e he => by
    have := codes_checkSupplierCountry inv e he
    tauto)
  have h5 := hother _ (fun e he => by
    have := codes_checkCustomerName inv e he
    tauto)
  have h6 := hother _ (fun e he => by
    have := codes_checkNoLines inv e he
    tauto)
  have h7 := hother _ (fun e he => by
    have := codes_checkLines inv e he
    tauto)
  have h9 := hother _ (fun e he => by
    have := codes_checkVatFormats inv e he
    tauto)
  have h10 := hother _ (fun e he => by
    have := codes_checkCurrency inv e he
    tauto)
  tauto

theorem codes_subtotalErrs (inv : InvoiceNormalized) (e : VError)
    (he : e ∈ subtotalErrs inv) : e.code = str "ERR_INVALID_SUBTOTAL" := by
  unfold subtotalErrs at he
  split_ifs at he <;> simp_all

theorem codes_vatTotalErrs (inv : InvoiceNormalized) (e : VError)
    (he : e ∈ vatTotalErrs inv) : e.code = str "ERR_INVALID_VAT_TOTAL" := by
  unfold vatTotalErrs at he
  split_ifs at he <;> simp_all

theorem codes_grandTotalErrs (inv : InvoiceNormalized) (e : VError)
    (he : e ∈ grandTotalErrs inv) : e.code = str "ERR_INVALID_TOTAL" := by
  unfold grandTotalErrs at he
  split_ifs at he <;> simp_all

theorem hasCode_subtotalErrs (inv : InvoiceNormalized) :
    hasCode (subtotalErrs inv) (str "ERR_INVALID_SUBTOTAL") ↔
      inv.subtotalExclVat ≠ none ∧
        |sumLineTotals inv.lines - inv.subtotalExclVat.getD 0| > 1/100 := by
  unfold subtotalErrs hasCode
  split_ifs with h
  · simp only [List.mem_singleton]
    exact ⟨fun _ => h, fun _ => ⟨_, rfl, rfl⟩⟩
  · simp only [List.not_mem_nil]
    exact ⟨fun ⟨e, hf, _⟩ => absurd hf (by simp), fun hh => absurd hh h⟩

theorem hasCode_vatTotalErrs (inv : InvoiceNormalized) :
    hasCode (vatTotalErrs inv) (str "ERR_INVALID_VAT_TOTAL") ↔
      inv.vatTotal ≠ none ∧ sumVatRoundedPerLine inv.lines > 0 ∧
        |sumVatRoundedPerLine inv.lines - inv.vatTotal.getD 0| > 1/100 := by
  unfold vatTotalErrs hasCode
  split_ifs with h
  · simp only [List.mem_singleton]
    exact ⟨fun _ => h, fun _ => ⟨_, rfl, rfl⟩⟩
  · simp only [List.not_mem_nil]
    exact ⟨fun ⟨e, hf, _⟩ => absurd hf (by simp), fun hh => absurd hh h⟩

theorem hasCode_grandTotalErrs (inv : InvoiceNormalized) :
    hasCode (grandTotalErrs inv) (str "ERR_INVALID_TOTAL") ↔
      inv.subtotalExclVat ≠ none ∧ inv.vatTotal ≠ none ∧ inv.totalInclVat ≠ none ∧
        |roundTo2Decimals (inv.subtotalExclVat.getD 0 + inv.vatTotal.getD 0) -
          roundTo2Decimals (inv.totalInclVat.getD 0)| > 1/100 := by
  unfold grandTotalErrs hasCode
  split_ifs with h
  · simp only [List.mem_singleton]
    exact ⟨fun _ => h, fun _ => ⟨_, rfl, rfl⟩⟩
  · simp only [List.not_mem_nil]
    exact ⟨fun ⟨e, hf, _⟩ => absurd hf (by simp), fun hh => absurd hh h⟩

theorem hasCode_checkTotals_subtotal (inv : InvoiceNormalized) :
    hasCode (checkTotals inv) (str "ERR_INVALID_SUBTOTAL") ↔
      inv.lines ≠ [] ∧ inv.subtotalExclVat ≠ none ∧
        |sumLineTotals inv.lines - inv.subtotalExclVat.getD 0| > 1/100 := by
  unfold checkTotals
  by_cases hl : inv.lines = []
  · rw [if_pos hl]
    simp [hasCode, hl]
  · rw [if_neg hl]
    rw [hasCode_append, hasCode_append, hasCode_subtotalErrs]
    have hv : ¬ hasCode (vatTotalErrs inv) (str "ERR_INVALID_SUBTOTAL") :=
      not_hasCode_of_codes _ _ (fun e he => by rw [codes_vatTotalErrs inv e he]; decide)
    have hg : ¬ hasCode (grandTotalErrs inv) (str "ERR_INVALID_SUBTOTAL") :=
      not_hasCode_of_codes _ _ (fun e he => by rw [codes_grandTotalErrs inv e he]; decide)
    constructor
    · rintro ((h | h) | h)
      · exact ⟨hl, h⟩
      · exact absurd h hv
      · exact absurd h hg
    · rintro ⟨-, h⟩
      exact Or.inl (Or.inl h)

theorem hasCode_checkTotals_vat (inv : InvoiceNormalized) :
    hasCode (checkTotals inv) (str "ERR_INVALID_VAT_TOTAL") ↔
      inv.lines ≠ [] ∧ inv.vatTotal ≠ none ∧ sumVatRoundedPerLine inv.lines > 0 ∧
        |sumVatRoundedPerLine inv.lines - inv.vatTotal.getD 0| > 1/100 := by
  unfold checkTotals
  by_cases hl : inv.lines = []
  · rw [if_pos hl]
    simp [hasCode, hl]
  · rw [if_neg hl]
    rw [hasCode_append, hasCode_append, hasCode_vatTotalErrs]
    have hs : ¬ hasCode (subtotalErrs inv) (str "ERR_INVALID_VAT_TOTAL") :=
      not_hasCode_of_codes _ _ (fun e he => by rw [codes_subtotalErrs inv e he]; decide)
    have hg : ¬ hasCode (grandTotalErrs inv) (str "ERR_INVALID_VAT_TOTAL") :=
      not_hasCode_of_codes _ _ (fun e he => by rw [codes_grandTotalErrs inv e he]; decide)
    constructor
    · rintro ((h | h) | h)
      · exact absurd h hs
      · exact ⟨hl, h⟩
      · exact absurd h hg
    · rintro ⟨-, h⟩
      exact Or.inl (Or.inr h)

theorem hasCode_checkTotals_total (inv : InvoiceNormalized) :
    hasCode (checkTotals inv) (str "ERR_INVALID_TOTAL") ↔
      inv.lines ≠ [] ∧ inv.subtotalExclVat ≠ none ∧ inv.vatTotal ≠ none ∧
        inv.totalInclVat ≠ none ∧
        |roundTo2Decimals (inv.subtotalExclVat.getD 0 + inv.vatTotal.getD 0) -
          roundTo2Decimals (inv.totalInclVat.getD 0)| > 1/100 := by
  unfold checkTotals
  by_cases hl : inv.lines = []
  · rw [if_pos hl]
    simp [hasCode, hl]
  · rw [if_neg hl]
    rw [hasCode_append, hasCode_append, hasCode_grandTotalErrs]
    have hs : ¬ hasCode (subtotalErrs inv) (str "ERR_INVALID_TOTAL") :=
      not_hasCode_of_codes _ _ (fun e he => by rw [codes_subtotalErrs inv e he]; decide)
    have hv : ¬ hasCode (vatTotalErrs inv) (str "ERR_INVALID_TOTAL") :=
      not_hasCode_of_codes _ _ (fun e he => by rw [codes_vatTotalErrs inv e he]; decide)
    constructor
    · rintro ((h | h) | h)
      · exact absurd h hs
      · exact absurd h hv
      · exact ⟨hl, h⟩
    · rintro ⟨-, h⟩
      exact Or.inr h

/-! ## Claims C3 and C4: aggregate total reconciliation -/

/-- C4 (counterexample): the aggregate checks do NOT fire on an empty line
list, nor when the recomputed VAT total is zero while a nonzero vatTotal is
stated — both contradicting the claim's "in particular" clause.
First invoice: no lines, stated subtotal 100 (recomputed subtotal is 0, a
gap of 100 > 0.01), yet no `ERR_INVALID_SUBTOTAL`.  Second invoice: one
line without a VAT rate (recomputed VAT total 0), stated vatTotal 5, yet no
`ERR_INVALID_VAT_TOTAL`. -/
theorem C4_aggregate_raises_iff_cex :
    (¬ hasCode (validateBusinessRules 0 { lines := [], subtotalExclVat := some 100 })
        (str "ERR_INVALID_SUBTOTAL") ∧
      |sumLineTotals ([] : List InvoiceLine) - 100| > 1/100) ∧
    (¬ hasCode (validateBusinessRules 0
          { lines := [{ lineTotal := some 10 }], vatTotal := some 5 })
        (str "ERR_INVALID_VAT_TOTAL") ∧
      sumVatRoundedPerLine [({ lineTotal := some 10 } : InvoiceLine)] = 0) := by
  constructor
  · constructor
    · rw [hasCode_validateBR_totals 0 _ _ (Or.inl rfl), hasCode_checkTotals_subtotal]
      simp
    · simp only [sumLineTotals, List.foldl_nil]
      rw [show |(0 : ℚ) - 100| = 100 by norm_num]
      norm_num
  · have hsum : sumVatRoundedPerLine [({ lineTotal := some 10 } : InvoiceLine)] = 0 := by
      simp [sumVatRoundedPerLine, qTruthy]
    constructor
    · rw [hasCode_validateBR_totals 0 _ _ (Or.inr (Or.inl rfl)), hasCode_checkTotals_vat]
      intro hcontra
      rw [hsum] at hcontra
      exact absurd hcontra.2.2.1 (by norm_num)
    · exact hsum

/-- C4 (amended): for every invoice, each aggregate check fires iff its
guard holds — but all three are additionally guarded by a NON-EMPTY line
list; the VAT check also requires the recomputed (per-line-rounded) VAT sum
to be positive; and the grand-total check requires all three stated totals
to be present and compares the values after rounding both sides. -/
theorem C4_aggregate_raises_iff (now : ℤ) (inv : InvoiceNormalized) :
    (hasCode (validateBusinessRules now inv) (str "ERR_INVALID_SUBTOTAL") ↔
      inv.lines ≠ [] ∧ inv.subtotalExclVat ≠ none ∧
        |sumLineTotals inv.lines - inv.subtotalExclVat.getD 0| > 1/100) ∧
    (hasCode (validateBusinessRules now inv) (str "ERR_INVALID_VAT_TOTAL") ↔
      inv.lines ≠ [] ∧ inv.vatTotal ≠ none ∧ sumVatRoundedPerLine inv.lines > 0 ∧
        |sumVatRoundedPerLine inv.lines - inv.vatTotal.getD 0| > 1/100) ∧
    (hasCode (validateBusinessRules now inv) (str "ERR_INVALID_TOTAL") ↔
      inv.lines ≠ [] ∧ inv.subtotalExclVat ≠ none ∧ inv.vatTotal ≠ none ∧
        inv.totalInclVat ≠ none ∧
        |roundTo2Decimals (inv.subtotalExclVat.getD 0 + inv.vatTotal.getD 0) -
          roundTo2Decimals (inv.totalInclVat.getD 0)| > 1/100) := by
  refine ⟨?_, ?_, ?_⟩
  · rw [hasCode_validateBR_totals now inv _ (Or.inl rfl)]
    exact hasCode_checkTotals_subtotal inv
  · rw [hasCode_validateBR_totals now inv _ (Or.inr (Or.inl rfl))]
    exact hasCode_checkTotals_vat inv
  · rw [hasCode_validateBR_totals now inv _ (Or.inr (Or.inr rfl))]
    exact hasCode_checkTotals_total inv

/-- C3 (counterexample): an invoice whose stated totals agree EXACTLY with
the normalizer's line-derived values (round-once-after-summing) still
triggers `ERR_INVALID_VAT_TOTAL`, because the validator recomputes the VAT
total by rounding each line's VAT amount BEFORE summing: five lines of
1.21 at 21% give `round2(5 × 0.2541) = 1.27` for the normalizer but
`5 × round2(0.2541) = 1.25` for the validator, a 0.02 disagreement. -/
theorem C3_reconciliation_cex :
    (roundTo2Decimals (sumLineTotals c3cexLines) = 605/100 ∧
      roundTo2Decimals (sumVatUnrounded c3cexLines) = 127/100 ∧
      roundTo2Decimals ((605 : ℚ)/100 + 127/100) = 732/100) ∧
    hasCode (validateBusinessRules 0 c3cexInvoice) (str "ERR_INVALID_VAT_TOTAL") := by
  have hsum : sumLineTotals c3cexLines = 605/100 := by
    simp [sumLineTotals, c3cexLines, c3cexLine]
    norm_num
  have hvatU : sumVatUnrounded c3cexLines = 12705/10000 := by
    simp [sumVatUnrounded, c3cexLines, c3cexLine, qTruthy]
    norm_num
  have hvatR : sumVatRoundedPerLine c3cexLines = 125/100 := by
    simp [sumVatRoundedPerLine, c3cexLines, c3cexLine, qTruthy, roundTo2Decimals, jsRound]
    norm_num
  refine ⟨⟨?_, ?_, ?_⟩, ?_⟩
  · rw [hsum]
    norm_num [roundTo2Decimals, jsRound]
  · rw [hvatU]
    norm_num [roundTo2Decimals, jsRound]
  · norm_num [roundTo2Decimals, jsRound]
  · rw [hasCode_validateBR_totals 0 _ _ (Or.inr (Or.inl rfl)), hasCode_checkTotals_vat]
    refine ⟨by simp [c3cexInvoice, c3cexLines], by simp [c3cexInvoice], ?_, ?_⟩
    · rw [show c3cexInvoice.lines = c3cexLines from rfl, hvatR]
      norm_num
    · rw [show c3cexInvoice.lines = c3cexLines from rfl, hvatR,
        show c3cexInvoice.vatTotal.getD 0 = 127/100 from rfl,
        show |(125:ℚ)/100 - 127/100| = 2/100 by norm_num]
      norm_num

/-- C3 (amended): the reconciliation invariant holds against the
VALIDATOR's recomputation: for every invoice with at least one line whose
stated subtotal is within 0.01 of the raw sum of line totals, whose stated
VAT total is within 0.01 of the sum of per-line-rounded VAT amounts, and
whose stated grand total satisfies
`|round2(subtotal + vatTotal) - round2(totalInclVat)| ≤ 0.01`, business-rule
validation emits no `ERR_INVALID_SUBTOTAL`, `ERR_INVALID_VAT_TOTAL` or
`ERR_INVALID_TOTAL`.  (The claim's hypothesis — closeness to the
NORMALIZER's round-once derivation — does not suffice; see the
counterexample.) -/
theorem C3_reconciliation_amended (now : ℤ) (inv : InvoiceNormalized)
    (hsub : |sumLineTotals inv.lines - inv.subtotalExclVat.getD 0| ≤ 1/100)
    (hvat : |sumVatRoundedPerLine inv.lines - inv.vatTotal.getD 0| ≤ 1/100)
    (htot : |roundTo2Decimals (inv.subtotalExclVat.getD 0 + inv.vatTotal.getD 0) -
      roundTo2Decimals (inv.totalInclVat.getD 0)| ≤ 1/100) :
    ¬ hasCode (validateBusinessRules now inv) (str "ERR_INVALID_SUBTOTAL") ∧
    ¬ hasCode (validateBusinessRules now inv) (str "ERR_INVALID_VAT_TOTAL") ∧
    ¬ hasCode (validateBusinessRules now inv) (str "ERR_INVALID_TOTAL") := by
  have h1 := (hasCode_validateBR_totals now inv _ (Or.inl rfl)).trans
    (hasCode_checkTotals_subtotal inv)
  have h2 := (hasCode_validateBR_totals now inv _ (Or.inr (Or.inl rfl))).trans
    (hasCode_checkTotals_vat inv)
  have h3 := (hasCode_validateBR_totals now inv _ (Or.inr (Or.inr rfl))).trans
    (hasCode_checkTotals_total inv)
  refine ⟨?_, ?_, ?_⟩
  · rw [h1]
    rintro ⟨-, -, hgt⟩
    linarith
  · rw [h2]
    rintro ⟨-, -, -, hgt⟩
    linarith
  · rw [h3]
    rintro ⟨-, -, -, -, hgt⟩
    linarith

/-- Witness for `C3_reconciliation_amended`: one line of 10.00 at 21%,
stated totals 10.00 / 2.10 / 12.10 — all hypotheses hold with gap 0 and no
aggregate error is emitted. -/
theorem C3_reconciliation_amended_witness :
    ¬ hasCode (validateBusinessRules 0
        { lines := [{ lineTotal := some 10, vatRate := some 21 }],
          subtotalExclVat := some 10, vatTotal := some (21/10),
          totalInclVat := some (121/10) })
      (str "ERR_INVALID_VAT_TOTAL") := by
  refine (C3_reconciliation_amended 0 _ ?_ ?_ ?_).2.1
  · simp [sumLineTotals]
  · simp [sumVatRoundedPerLine, qTruthy, roundTo2Decimals, jsRound]
    norm_num
  · simp only [Option.getD_some]
    norm_num [roundTo2Decimals, jsRound]

/-! ## Claim C8: required-field absences are warnings -/

theorem sev_checkInvoiceNumber (inv : InvoiceNormalized) (e : VError)
    (he : e ∈ checkInvoiceNumber inv) : e.severity = .warning := by
  unfold checkInvoiceNumber at he
  split_ifs at he <;> simp_all

theorem sev_checkIssueDate (now : ℤ) (inv : InvoiceNormalized) (e : VError)
    (he : e ∈ checkIssueDate now inv) :
    e.severity = .warning ∨ e.code = str "ERR_INVALID_ISSUE_DATE" := by
  unfold checkIssueDate at he
  rcases hd : inv.issueDate with _ | d <;> rw [hd] at he
  · simp_all
  · by_cases hv : d.valid = true <;> by_cases ht : d.time > now <;> simp_all

theorem sev_checkSupplierName (inv : InvoiceNormalized) (e : VError)
    (he : e ∈ checkSupplierName inv) : e.severity = .warning := by
  unfold checkSupplierName at he
  split_ifs at he <;> simp_all

theorem sev_checkSupplierCountry (inv : InvoiceNormalized) (e : VError)
    (he : e ∈ checkSupplierCountry inv) : e.severity = .warning := by
  unfold checkSupplierCountry at he
  split_ifs at he <;> simp_all

theorem sev_checkCustomerName (inv : InvoiceNormalized) (e : VError)
    (he : e ∈ checkCustomerName inv) : e.severity = .warning := by
  unfold checkCustomerName at he
  split_ifs at he <;> simp_all

theorem sev_checkNoLines (inv : InvoiceNormalized) (e : VError)
    (he : e ∈ checkNoLines inv) : e.severity = .warning := by
  unfold checkNoLines at he
  split_ifs at he <;> simp_all

theorem sev_checkLine (i : Nat) (l : InvoiceLine) (e : VError)
    (he : e ∈ checkLine i l) :
    e.severity = .warning ∨ e.code = str "ERR_INVALID_LINE_AMOUNT" := by
  unfold checkLine at he
  simp only [List.mem_append] at he
  rcases he with h | h <;> split_ifs at h <;> simp_all

theorem sev_checkLines (inv : InvoiceNormalized) (e : VError)
    (he : e ∈ checkLines inv) :
    e.severity = .warning ∨ e.code = str "ERR_INVALID_LINE_AMOUNT" := by
  unfold checkLines at he
  rw [List.mem_flatten] at he
  obtain ⟨l', hl', hel⟩ := he
  rw [List.mapIdx_eq_enum_map, List.mem_map] at hl'
  obtain ⟨⟨i, l⟩, _, hmk⟩ := hl'
  rw [← hmk] at hel
  exact sev_checkLine i l e hel

theorem sev_checkCurrency (inv : InvoiceNormalized) (e : VError)
    (he : e ∈ checkCurrency inv) : e.severity = .warning := by
  unfold checkCurrency at he
  split_ifs at he <;> simp_all

/-- C8: every required-field-absence finding (missing invoice number, issue
date, supplier name, supplier country, customer name, or empty line list)
has severity `warning`, never `error`; a report built from error-free
findings is valid; and the all-empty invoice `{ lines := [] }` — missing
every required field — yields a report with `isValid = true` for every
validation time. -/
theorem C8_required_fields_warnings :
    (∀ (now : ℤ) (inv : InvoiceNormalized) (e : VError),
      e ∈ validateBusinessRules now inv → requiredFieldCode e.code → e.severity = .warning) ∧
    (∀ errs : List VError, (∀ e ∈ errs, e.severity ≠ .error) →
      (buildValidationReport errs).isValid = true) ∧
    (∀ now : ℤ,
      (buildValidationReport (validateBusinessRules now { lines := [] })).isValid = true) := by
  refine ⟨?_, ?_, ?_⟩
  · intro now inv e he hc
    unfold validateBusinessRules at he
    simp only [List.mem_append] at he
    rcases he with ((((((((he | he) | he) | he) | he) | he) | he) | he) | he) | he
    · exact sev_checkInvoiceNumber inv e he
    · rcases sev_checkIssueDate now inv e he with h | h
      · exact h
      · exfalso
        rcases hc with hc | hc | hc | hc | hc | hc <;> rw [h] at hc <;> exact absurd hc (by decide)
    · exact sev_checkSupplierName inv e he
    · exact sev_checkSupplierCountry inv e he
    · exact sev_checkCustomerName inv e he
    · exact sev_checkNoLines inv e he
    · rcases sev_checkLines inv e he with h | h
      · exact h
      · exfalso
        rcases hc with hc | hc | hc | hc | hc | hc <;> rw [h] at hc <;> exact absurd hc (by decide)
    · exfalso
      rcases codes_checkTotals inv e he with h | h | h <;>
        rcases hc with hc | hc | hc | hc | hc | hc <;> rw [h] at hc <;> exact absurd hc (by decide)
    · exfalso
      have h := codes_checkVatFormats inv e he
      rcases hc with hc | hc | hc | hc | hc | hc <;> rw [h] at hc <;> exact absurd hc (by decide)
    · exact sev_checkCurrency inv e he
  · intro errs h
    unfold buildValidationReport
    simp only [beq_iff_eq]
    rw [List.filter_eq_nil_iff.mpr (fun e he => by simp [h e he])]
    rfl
  · intro now
    have hempty : validateBusinessRules now { lines := [] } =
        checkInvoiceNumber { lines := [] } ++ checkIssueDate now { lines := [] } ++
        checkSupplierName { lines := [] } ++ checkSupplierCountry { lines := [] } ++
        checkCustomerName { lines := [] } ++ checkNoLines { lines := [] } ++
        checkLines { lines := [] } ++ checkTotals { lines := [] } ++
        checkVatFormats { lines := [] } ++ checkCurrency { lines := [] } := rfl
    unfold buildValidationReport
    simp only [beq_iff_eq]
    rw [List.filter_eq_nil_iff.mpr]
    · rfl
    · intro e he
      rw [hempty] at he
      simp only [List.mem_append] at he
      rcases he with ((((((((he | he) | he) | he) | he) | he) | he) | he) | he) | he
      · simp [sev_checkInvoiceNumber _ e he]
      · unfold checkIssueDate at he
        simp_all
      · simp [sev_checkSupplierName _ e he]
      · simp [sev_checkSupplierCountry _ e he]
      · simp [sev_checkCustomerName _ e he]
      · simp [sev_checkNoLines _ e he]
      · unfold checkLines at he
        simp_all [List.mapIdx_eq_enum_map]
      · unfold checkTotals at he
        simp_all
      · unfold checkVatFormats at he
        simp_all [strTruthy]
      · simp [sev_checkCurrency _ e he]

/-- Witness for `C8_required_fields_warnings`: a report built from an empty
finding list is valid. -/
theorem C8_required_fields_warnings_witness :
    (buildValidationReport ([] : List VError)).isValid = true :=
  C8_required_fields_warnings.2.1 [] (by simp)

/-! ## Claim C10: the XSD stub -/

/-- C10: `validateXSD` returns exactly one finding, with code
`INFO_XSD_VALIDATION_SKIPPED` and severity `warning`, for every input; the
conversion pipeline's validation report therefore always has a non-empty
warnings list, and the XSD stub never changes `isValid`. -/
theorem C10_xsd_stub (xml : JSStr) (br dq : List VError) :
    validateXSD xml = [{ code := str "INFO_XSD_VALIDATION_SKIPPED", severity := .warning, fieldPath := some (str "Invoice") }] ∧
    (pipelineValidationReport br dq xml).warnings ≠ [] ∧
    (pipelineValidationReport br dq xml).isValid = (buildValidationReport (br ++ dq)).isValid := by
  refine ⟨rfl, ?_, ?_⟩
  · unfold pipelineValidationReport buildValidationReport validateXSD
    simp [List.filter_append]
  · unfold pipelineValidationReport buildValidationReport validateXSD
    simp [List.filter_append]

/-! ## Claim C7: defensive completeness of the serializer -/

theorem taxTotals_ite_ne_nil (tt : List UBLTaxTotal) :
    (if tt ≠ [] then tt else [({ taxAmount := 0 } : UBLTaxTotal)]) ≠ [] := by
  split_ifs with h
  · exact h
  · simp

theorem taxTotals_ite_nil (tt : List UBLTaxTotal) (h : tt = []) :
    (if tt ≠ [] then tt else [({ taxAmount := 0 } : UBLTaxTotal)]) = [{ taxAmount := 0 }] := by
  subst h
  simp

theorem vatGroupsOf_nil (ls : List InvoiceLine)
    (h : ∀ l ∈ ls, l.vatRate = none ∨ l.lineTotal = none) : vatGroupsOf ls = [] := by
  unfold vatGroupsOf
  have hgen : ∀ (t : List InvoiceLine), (∀ l ∈ t, l.vatRate = none ∨ l.lineTotal = none) →
      ∀ acc : List (ℚ × ℚ × ℚ),
        t.foldl (fun groups line =>
          if line.vatRate ≠ none ∧ line.lineTotal ≠ none then
            let rate := line.vatRate.getD 0
            let taxable := line.lineTotal.getD 0
            let tax := roundTo2Decimals (taxable * rate / 100)
            if groups.any (fun g => g.1 == rate) then
              groups.map (fun g => if g.1 == rate then (g.1, g.2.1 + taxable, g.2.2 + tax) else g)
            else groups ++ [(rate, taxable, tax)]
          else groups) acc = acc := by
    intro t
    induction t with
    | nil => intro _ acc; rfl
    | cons l t ih =>
        intro ht acc
        simp only [List.foldl_cons]
        rw [if_neg (by rcases ht l (by simp) with h | h <;> simp [h])]
        exact ih (fun l' hl' => ht l' (by simp [hl'])) acc
  exact hgen ls h []

theorem buildTaxTotals_nil (inv : InvoiceNormalized)
    (hlines : ∀ l ∈ inv.lines, l.vatRate = none ∨ l.lineTotal = none)
    (hvat : ¬ qTruthy inv.vatTotal = true) : buildTaxTotals inv = [] := by
  unfold buildTaxTotals
  have hg : vatGroupsOf inv.lines = [] := vatGroupsOf_nil inv.lines hlines
  rw [if_neg]
  · simp [hg]
  · simp [hg, hvat]

/-- C7 (counterexample): with no VAT group but a truthy stated `vatTotal`,
the single emitted tax-total block carries the STATED (non-zero) total, not
a zero value: the invoice `{lines := [], vatTotal := 42}` has no VAT group,
yet its tax-total block has `TaxAmount = 42`. -/
theorem C7_zero_taxtotal_cex :
    (∀ l ∈ ({ lines := [], vatTotal := some 42 } : InvoiceNormalized).lines,
      l.vatRate = none ∨ l.lineTotal = none) ∧
    (convertToUBL { valid := true, time := 0 } { lines := [], vatTotal := some 42 }).taxTotals =
      [{ taxAmount := 42, subtotal := some { taxableAmount := 0, taxAmount := 42, categoryId := str "S", percent := 0 } }] ∧
    (42 : ℚ) ≠ 0 := by
  refine ⟨by simp, ?_, by norm_num⟩
  have h42 : qTruthy (some (42 : ℚ)) = true := by
    simp [qTruthy]
  simp [convertToUBL, buildTaxTotals, vatGroupsOf, h42]

/-- C7 (amended): the serializer always emits at least one `TaxTotal`; when
the invoice has no VAT group AND no truthy stated `vatTotal`, the single
block is zero-valued; and for the empty invoice `{lines := []}` the
defaults hold: invoice number "UNKNOWN", issue date = the current date,
supplier and customer party structures present with country "BE", a single
zero `TaxTotal`, and a `LegalMonetaryTotal` whose four amounts are all 0. -/
theorem C7_defensive_completeness (now : JDate) (inv : InvoiceNormalized) :
    (convertToUBL now inv).taxTotals ≠ [] ∧
    ((∀ l ∈ inv.lines, l.vatRate = none ∨ l.lineTotal = none) → ¬ qTruthy inv.vatTotal = true →
      (convertToUBL now inv).taxTotals = [{ taxAmount := 0 }]) ∧
    ((convertToUBL now { lines := [] }).id = str "UNKNOWN" ∧
      (convertToUBL now { lines := [] }).issueDate = now ∧
      (convertToUBL now { lines := [] }).supplier = { partyName := [], countryCode := str "BE" } ∧
      (convertToUBL now { lines := [] }).customer = { partyName := [], countryCode := str "BE" } ∧
      (convertToUBL now { lines := [] }).taxTotals = [{ taxAmount := 0 }] ∧
      (convertToUBL now { lines := [] }).legalMonetaryTotal =
        { lineExtensionAmount := 0, taxExclusiveAmount := 0, taxInclusiveAmount := 0, payableAmount := 0 }) := by
  have hzero : ∀ inv' : InvoiceNormalized,
      (∀ l ∈ inv'.lines, l.vatRate = none ∨ l.lineTotal = none) → ¬ qTruthy inv'.vatTotal = true →
      (convertToUBL now inv').taxTotals = [{ taxAmount := 0 }] := by
    intro inv' hlines hvat
    exact taxTotals_ite_nil _ (buildTaxTotals_nil _ hlines hvat)
  refine ⟨taxTotals_ite_ne_nil _, hzero inv, rfl, rfl, ?_, ?_, ?_, ?_⟩
  · simp [convertToUBL, buildParty, strTruthy]
  · simp [convertToUBL, buildParty, strTruthy]
  · exact hzero { lines := [] } (by simp) (by simp [qTruthy])
  · have hq : qTruthy (none : Option ℚ) = false := by
      simp [qTruthy]
    simp [convertToUBL, buildLegalMonetaryTotal, hq]
    norm_num [roundTo2Decimals, jsRound]

/-- Witness for `C7_defensive_completeness` at the empty invoice: no line
has a VAT group and no `vatTotal` is stated, so the zero-valued fallback
block is emitted. -/
theorem C7_defensive_completeness_witness :
    (convertToUBL { valid := true, time := 0 } { lines := [] }).taxTotals = [{ taxAmount := 0 }] :=
  (C7_defensive_completeness { valid := true, time := 0 } { lines := [] }).2.1
    (by simp) (by simp [qTruthy])

/-! ## Claim C9: the normalizer and shared state -/

theorem normalizePartyVat_none (h : Nat → Party) : normalizePartyVat h none = h := rfl

theorem normalizePartyVat_some (h : Nat → Party) (a : Nat) :
    normalizePartyVat h (some a) =
      (if strTruthy (h a).vatNumber = true then
        (fun x => if x = a then { h a with vatNumber := some (normalizeVATNumber ((h a).vatNumber.getD [])) } else h x)
      else h) := rfl

theorem normalizePartyVat_frame (h : Nat → Party) (r : Option Nat) (x : Nat)
    (hx : r ≠ some x) : normalizePartyVat h r x = h x := by
  rcases r with _ | a
  · rw [normalizePartyVat_none]
  · rw [normalizePartyVat_some]
    split_ifs with ht
    · exact if_neg (fun hxa => hx (by rw [hxa]))
    · rfl

/-- C9 (counterexample): `normalizeInvoice` DOES mutate its argument's
nested supplier party.  In a heap model where the invoice references the
caller's party object, the call writes the country-prefixed VAT number
through the shared reference: the caller's party, which held
"0123456789", holds "BE0123456789" after the call. -/
theorem C9_no_mutation_cex :
    ((normalizeInvoiceH (fun _ => { vatNumber := some (str "0123456789") })
        { lines := [], supplier := some 0 }).1 0).vatNumber = some (str "BE0123456789") ∧
    ((fun (_ : Nat) => ({ vatNumber := some (str "0123456789") } : Party)) 0).vatNumber =
      some (str "0123456789") ∧
    str "BE0123456789" ≠ str "0123456789" := by
  refine ⟨?_, rfl, by decide⟩
  show ((normalizePartyVat (normalizePartyVat _ (some 0)) none) 0).vatNumber = _
  unfold normalizePartyVat
  simp only []
  decide

/-- C9 (amended): the heap-level frame of `normalizeInvoice`: party objects
not referenced as supplier or customer are untouched, and when neither
referenced party carries a truthy VAT number the argument is completely
unchanged — the only mutation `normalizeInvoice` performs is the VAT
write-back through the shared supplier/customer references (the top-level
record and the line objects are rebuilt, not mutated). -/
theorem C9_no_mutation_amended (h : Nat → Party) (inv : InvoiceRef) :
    (∀ x, inv.supplier ≠ some x → inv.customer ≠ some x →
      (normalizeInvoiceH h inv).1 x = h x) ∧
    ((∀ a, inv.supplier = some a → ¬ strTruthy (h a).vatNumber = true) →
      (∀ a, inv.customer = some a → ¬ strTruthy (h a).vatNumber = true) →
      (normalizeInvoiceH h inv).1 = h) := by
  constructor
  · intro x hs hc
    show normalizePartyVat (normalizePartyVat h inv.supplier) inv.customer x = h x
    rw [normalizePartyVat_frame _ _ _ hc, normalizePartyVat_frame _ _ _ hs]
  · intro hs hc
    have h1 : normalizePartyVat h inv.supplier = h := by
      rcases hsup : inv.supplier with _ | a
      · rw [normalizePartyVat_none]
      · rw [normalizePartyVat_some, if_neg (hs a hsup)]
    show normalizePartyVat (normalizePartyVat h inv.supplier) inv.customer = h
    rw [h1]
    rcases hcus : inv.customer with _ | a
    · rw [normalizePartyVat_none]
    · rw [normalizePartyVat_some, if_neg (hc a hcus)]

/-- Witness for `C9_no_mutation_amended`: with no supplier or customer
reference the heap is untouched. -/
theorem C9_no_mutation_amended_witness :
    (normalizeInvoiceH (fun _ => ({} : Party)) { lines := [] }).1 = fun _ => ({} : Party) :=
  (C9_no_mutation_amended (fun _ => ({} : Party)) { lines := [] }).2
    (fun a ha => by simp at ha) (fun a ha => by simp at ha)

/-! ## Claim C5: AI merge precedence -/

theorem foldl_append_all (l : List MappingField) (m0 : List MappingField) (p0 : List JSStr) :
    l.foldl (fun st f => (st.1 ++ [f], st.2 ++ [f.field])) (m0, p0) =
      (m0 ++ l, p0 ++ l.map (fun f => f.field)) := by
  induction l generalizing m0 p0 with
  | nil => simp
  | cons f t ih =>
      simp only [List.foldl_cons, List.map_cons]
      rw [ih]
      simp

theorem mergeStep_mem (st : List MappingField × List JSStr) (f : MappingField)
    (h : f.field ∈ st.2) : mergeStep st f = st := by
  unfold mergeStep
  rw [if_pos h]

theorem mergeStep_not_mem (st : List MappingField × List JSStr) (f : MappingField)
    (h : f.field ∉ st.2) : mergeStep st f = (st.1 ++ [f], st.2 ++ [f.field]) := by
  unfold mergeStep
  rw [if_neg h]

theorem foldl_mergeStep_filter (l : List MappingField) (st : List MappingField × List JSStr)
    (q : JSStr) (hq : q ∈ st.2) :
    (l.foldl mergeStep st).1.filter (fun f => f.field == q) =
      st.1.filter (fun f => f.field == q) ∧ q ∈ (l.foldl mergeStep st).2 := by
  induction l generalizing st with
  | nil => exact ⟨rfl, hq⟩
  | cons f t ih =>
      simp only [List.foldl_cons]
      by_cases hf : f.field ∈ st.2
      · rw [mergeStep_mem st f hf]
        exact ih st hq
      · rw [mergeStep_not_mem st f hf]
        have hne : ¬ (f.field == q) = true := by
          simp only [beq_iff_eq]
          intro hfq
          exact hf (hfq ▸ hq)
        have step := ih (st.1 ++ [f], st.2 ++ [f.field]) (by simp [hq])
        refine ⟨?_, step.2⟩
        rw [step.1, List.filter_append]
        simp [hne]

/-- C5 (counterexample): a NON-NULL empty-string scalar from the AI response
does NOT override the candidate's field — the merge uses JS `||`, so the
falsy `""` loses and the candidate's `"OLD-1"` survives. -/
theorem C5_merge_precedence_cex :
    (mergeAIResults { lines := [], invoiceNumber := some (str "OLD-1") }
        { invoiceNumber := some (str "") }).invoiceNumber = some (str "OLD-1") ∧
    ({ invoiceNumber := some (str "") } : AIResponse).invoiceNumber = some (str "") ∧
    str "" ≠ str "OLD-1" := by
  refine ⟨?_, rfl, by decide⟩
  show strOr (some (str "")) (some (str "OLD-1")) = some (str "OLD-1")
  decide

/-- C5 (amended): AI merge precedence holds for TRUTHY values: a non-empty
AI scalar string overrides, but an empty-string (non-null) scalar does not;
the three totals override whenever non-null (zero included); a non-empty AI
line array replaces the candidate's lines and an absent one keeps them;
party sub-fields merge with truthy-AI precedence; and in the merged
mapping-field list every path carried by the AI response keeps exactly the
AI entry (confidence 0.9, AI source), dropping any initial-pass entries. -/
theorem C5_merge_precedence (e : InvoiceNormalized) (a : AIResponse)
    (fields : List MappingField) (src : JSStr) :
    (∀ s, a.invoiceNumber = some s → s ≠ [] → (mergeAIResults e a).invoiceNumber = some s) ∧
    (a.invoiceNumber = some [] → (mergeAIResults e a).invoiceNumber = e.invoiceNumber) ∧
    (∀ q, a.subtotalExclVat = some q → (mergeAIResults e a).subtotalExclVat = some q) ∧
    (∀ ls, a.lines = some ls → ls ≠ [] → (mergeAIResults e a).lines = ls) ∧
    (a.lines = none → (mergeAIResults e a).lines = e.lines) ∧
    (∀ p ap s, e.supplier = some p → a.supplier = some ap → ap.name = some s → s ≠ [] →
      ((mergeAIResults e a).supplier.bind Party.name) = some s) ∧
    (∀ s, a.invoiceNumber = some s → s ≠ [] →
      (mergeAIMappingFields fields a src).filter (fun f => f.field == str "invoiceNumber") =
        [{ field := str "invoiceNumber", value := s, source := src, confidence := 9/10, rawValue := some s }]) := by
  refine ⟨?_, ?_, ?_, ?_, ?_, ?_, ?_⟩
  · intro s ha hs
    show strOr a.invoiceNumber e.invoiceNumber = some s
    rw [ha]
    unfold strOr
    rw [if_pos (by simp [strTruthy, hs])]
  · intro ha
    show strOr a.invoiceNumber e.invoiceNumber = e.invoiceNumber
    rw [ha]
    unfold strOr
    rw [if_neg (by simp [strTruthy])]
  · intro q ha
    show (if a.subtotalExclVat ≠ none then a.subtotalExclVat else e.subtotalExclVat) = some q
    rw [ha]
    simp
  · intro ls ha hls
    show (if a.lines.getD [] ≠ [] then a.lines.getD [] else e.lines) = ls
    rw [ha]
    simp [hls]
  · intro ha
    show (if a.lines.getD [] ≠ [] then a.lines.getD [] else e.lines) = e.lines
    rw [ha]
    simp
  · intro p ap s hp hap hname hs
    show (mergeParty e.supplier a.supplier).bind Party.name = some s
    rw [hp, hap]
    unfold mergeParty
    simp only [Option.bind_some]
    show strOr ap.name p.name = some s
    rw [hname]
    unfold strOr
    rw [if_pos (by simp [strTruthy, hs])]
  · intro s ha hs
    simp only [mergeAIMappingFields]
    rw [foldl_append_all]
    have hmem : str "invoiceNumber" ∈ ([] : List JSStr) ++ (aiFieldsOf a src).map (fun f => f.field) := by
      unfold aiFieldsOf
      rw [if_pos (by simp [strTruthy, ha, hs])]
      simp
    obtain ⟨hf2, hq2⟩ := foldl_mergeStep_filter fields
      ([] ++ aiFieldsOf a src, [] ++ (aiFieldsOf a src).map (fun f => f.field))
      (str "invoiceNumber") hmem
    obtain ⟨hf3, -⟩ := foldl_mergeStep_filter (aiFieldsOf a src)
      (List.foldl mergeStep ([] ++ aiFieldsOf a src, [] ++ (aiFieldsOf a src).map (fun f => f.field)) fields)
      (str "invoiceNumber") hq2
    rw [hf3, hf2]
    simp only [List.nil_append]
    unfold aiFieldsOf
    rw [if_pos (by simp [strTruthy, ha, hs]), ha]
    rw [List.filter_append, List.filter_append, List.filter_append]
    have hone : List.filter (fun f => f.field == str "invoiceNumber")
        [({ field := str "invoiceNumber", value := s, source := src, confidence := 9/10, rawValue := some s } : MappingField)] =
        [{ field := str "invoiceNumber", value := s, source := src, confidence := 9/10, rawValue := some s }] := by
      simp
    rw [show (some s).getD [] = s from rfl]
    rw [hone]
    have hrest : ∀ (c : JSStr) (v : MappingField), v.field = c → ¬ (c = str "invoiceNumber") →
        List.filter (fun f => f.field == str "invoiceNumber") [v] = [] := by
      intro c v hv hc
      simp [hv, hc]
    split_ifs <;> simp_all <;> decide

/-- Witness for `C5_merge_precedence`: the AI invoice number "NEW-2"
overrides the candidate's "OLD-1", and the merged mapping list keeps
exactly the confidence-0.9 AI entry for path `invoiceNumber`. -/
theorem C5_merge_precedence_witness :
    (mergeAIResults { lines := [], invoiceNumber := some (str "OLD-1") }
        { invoiceNumber := some (str "NEW-2") }).invoiceNumber = some (str "NEW-2") ∧
    (mergeAIMappingFields
        [{ field := str "invoiceNumber", value := str "OLD-1", source := str "pdf-text", confidence := 6/10 }]
        { invoiceNumber := some (str "NEW-2") } (str "ai-gemini")).filter
        (fun f => f.field == str "invoiceNumber") =
      [{ field := str "invoiceNumber", value := str "NEW-2", source := str "ai-gemini", confidence := 9/10, rawValue := some (str "NEW-2") }] :=
  ⟨(C5_merge_precedence { lines := [], invoiceNumber := some (str "OLD-1") }
      { invoiceNumber := some (str "NEW-2") } [] (str "ai-gemini")).1 (str "NEW-2") rfl (by decide),
    (C5_merge_precedence { lines := [] } { invoiceNumber := some (str "NEW-2") }
      [{ field := str "invoiceNumber", value := str "OLD-1", source := str "pdf-text", confidence := 6/10 }]
      (str "ai-gemini")).2.2.2.2.2.2 (str "NEW-2") rfl (by decide)⟩

/-! ## Claim C6: the AI enhancer is never fatal -/

/-- C6 (counterexample): a text-extraction exception does NOT make
`parseWithAI` fall back to the candidate: the exception is caught locally,
processing continues with empty text, and a successful service call still
applies the AI result (`aiUsed = true`), contradicting the claim that any
step's exception returns the candidate with `aiUsed = false`. -/
theorem C6_never_fatal_cex :
    (parseWithAI (some (str "key")) pdfMime (.exn (str "pdf-parse failed"))
      (.ok {}) { lines := [] } []).aiUsed = true := by
  simp only [parseWithAI]
  rw [if_neg (by decide)]

/-- C6 (amended): `parseWithAI` is a total function (never throws); with a
missing or blank credential it returns exactly the candidate invoice and
mapping fields with `aiUsed = false`, and likewise when the
completion-service call (or the JSON parsing inside it) raises; only a
text-extraction exception is recovered locally without aborting the AI
pass. -/
theorem C6_never_fatal (geminiKey : Option JSStr) (mimeType : JSStr)
    (extractResult : JSResult JSStr) (apiResult : JSResult AIResponse)
    (inv : InvoiceNormalized) (fs : List MappingField) :
    (¬ strTruthy (geminiKey.map trimStr) = true →
      parseWithAI geminiKey mimeType extractResult apiResult inv fs =
        { invoice := inv, mappingFields := fs, aiUsed := false }) ∧
    (∀ msg, apiResult = .exn msg →
      parseWithAI geminiKey mimeType extractResult apiResult inv fs =
        { invoice := inv, mappingFields := fs, aiUsed := false }) := by
  constructor
  · intro hk
    simp only [parseWithAI]
    rw [if_pos hk]
  · intro msg hapi
    simp only [parseWithAI]
    by_cases hk : ¬ strTruthy (Option.map trimStr geminiKey) = true
    · rw [if_pos hk]
    · rw [if_neg hk, hapi]

/-- Witness for `C6_never_fatal`: with no credential configured the
candidate passes through unchanged. -/
theorem C6_never_fatal_witness :
    parseWithAI none pdfMime (.ok []) (.ok {}) { lines := [] } [] =
      { invoice := { lines := [] }, mappingFields := [], aiUsed := false } :=
  (C6_never_fatal none pdfMime (.ok []) (.ok {}) { lines := [] } []).1 (by simp [strTruthy])

/-! ## Claim C1: the rounding rule -/

/-- C1 (counterexample): `roundTo2Decimals` is NOT round-half-away-from-zero.
At `v = -0.005` the two nearest multiples of `0.01` are `0` and `-0.01`;
half-away-from-zero picks `-0.01`, but `Math.round`-based rounding rounds the
tie toward `+∞` and yields `0`. -/
theorem C1_round_half_away_cex :
    roundTo2Decimals (-(1/200)) = 0 ∧
    roundHalfAwayFromZero2 (-(1/200)) = -(1/100) ∧
    roundTo2Decimals (-(1/200)) ≠ roundHalfAwayFromZero2 (-(1/200)) := by
  have h1 : roundTo2Decimals (-(1/200)) = 0 := by
    norm_num [roundTo2Decimals, jsRound]
  have h2 : roundHalfAwayFromZero2 (-(1/200)) = -(1/100) := by
    norm_num [roundHalfAwayFromZero2]
  refine ⟨h1, h2, ?_⟩
  rw [h1, h2]
  norm_num

/-- C1 (amended): `roundTo2Decimals` implements round-half-UP (ties toward
`+∞`) at 2 decimal places: its result is a nearest multiple of `0.01`, ties
resolve to the LARGER candidate, and on nonnegative inputs it agrees with
round-half-away-from-zero; the derived line total for a line with
quantity 3 and unit price 19.995 is 59.99. -/
theorem C1_roundTo2Decimals_half_up (v : ℚ) (m : ℤ) :
    |roundTo2Decimals v - v| ≤ |(m : ℚ) / 100 - v| ∧
    (|(m : ℚ) / 100 - v| = |roundTo2Decimals v - v| → (m : ℚ) / 100 ≤ roundTo2Decimals v) ∧
    (0 ≤ v → roundTo2Decimals v = roundHalfAwayFromZero2 v) ∧
    (normalizeLine { quantity := some 3, unitPrice := some (19995/1000) } 0).lineTotal = some (5999/100) := by
  have hfl : ((⌊v * 100 + 1/2⌋ : ℤ) : ℚ) ≤ v * 100 + 1/2 := Int.floor_le _
  have hlt : v * 100 + 1/2 < (⌊v * 100 + 1/2⌋ : ℤ) + 1 := Int.lt_floor_add_one _
  have hr : roundTo2Decimals v = ((⌊v * 100 + 1/2⌋ : ℤ) : ℚ) / 100 := rfl
  set n : ℤ := ⌊v * 100 + 1/2⌋ with hn
  have hb : |(n : ℚ) / 100 - v| ≤ 1/200 := by
    rw [abs_le]
    constructor <;> linarith
  have hnear : ∀ m' : ℤ, |roundTo2Decimals v - v| ≤ |(m' : ℚ) / 100 - v| := by
    intro m'
    rw [hr]
    rcases lt_trichotomy m' n with hm | hm | hm
    · have hcast : (m' : ℚ) + 1 ≤ (n : ℚ) := by exact_mod_cast Int.add_one_le_iff.mpr hm
      have hge : 1/200 ≤ v - (m' : ℚ) / 100 := by linarith
      calc |(n : ℚ) / 100 - v| ≤ 1/200 := hb
        _ ≤ v - (m' : ℚ) / 100 := hge
        _ ≤ |v - (m' : ℚ) / 100| := le_abs_self _
        _ = |(m' : ℚ) / 100 - v| := abs_sub_comm _ _
    · rw [hm]
    · have hcast : (n : ℚ) + 1 ≤ (m' : ℚ) := by exact_mod_cast Int.add_one_le_iff.mpr hm
      have hgt : 1/200 < (m' : ℚ) / 100 - v := by linarith
      calc |(n : ℚ) / 100 - v| ≤ 1/200 := hb
        _ ≤ (m' : ℚ) / 100 - v := le_of_lt hgt
        _ ≤ |(m' : ℚ) / 100 - v| := le_abs_self _
  refine ⟨hnear m, ?_, ?_, ?_⟩
  · intro htie
    rw [hr]
    rcases lt_trichotomy m n with hm | hm | hm
    · have : (m : ℚ) ≤ (n : ℚ) := by exact_mod_cast le_of_lt hm
      linarith
    · rw [hm]
    · exfalso
      have hcast : (n : ℚ) + 1 ≤ (m : ℚ) := by exact_mod_cast Int.add_one_le_iff.mpr hm
      have hgt : 1/200 < (m : ℚ) / 100 - v := by linarith
      have habs : |(m : ℚ) / 100 - v| ≤ 1/200 := by
        rw [htie, hr]
        exact hb
      have : (m : ℚ) / 100 - v ≤ 1/200 := le_trans (le_abs_self _) habs
      linarith
  · intro hv
    rw [roundHalfAwayFromZero2, if_pos hv]
    rfl
  · simp [normalizeLine, roundTo2Decimals, jsRound, strTruthy]
    norm_num

/-- Witness for `C1_roundTo2Decimals_half_up` at the tie `v = 0.015`,
`m = 1`: the competing multiple `0.01` is not preferred and the
half-away-from-zero agreement holds on this nonnegative input. -/
theorem C1_roundTo2Decimals_half_up_witness :
    ((1 : ℤ) : ℚ) / 100 ≤ roundTo2Decimals (3/200) ∧
    roundTo2Decimals (3/200) = roundHalfAwayFromZero2 (3/200) :=
  ⟨(C1_roundTo2Decimals_half_up (3/200) 1).2.1
      (by norm_num [roundTo2Decimals, jsRound]),
    (C1_roundTo2Decimals_half_up (3/200) 1).2.2.1 (by norm_num)⟩

end Peppol
